import Mathlib

/-! ## WASM interpreter bridge (`core/vm/interpreter_life.go`)

A shallow embedding of `WASMInterpreter.Run`, `parseInputFromAbi` and
`parseRlpData`.  Go byte slices are lists of bytes, Go strings are Lean strings
whose characters stand for the bytes of the Go string, `int64` words are
integers (wrapped explicitly where a conversion can wrap), and the collaborators
that live outside the file (the RLP decoder, the ABI JSON parser, the Life
virtual machine, `strings.EqualFold`) are the fields of an `Engine` record, so
that every theorem holds for every behaviour of those collaborators.
-/

namespace PlatON

/-! ## Data model -/

abbrev Byte := Fin 256

abbrev Bytes := List Byte

/-- A Go `error` value, identified by its message. -/
abbrev GoError := String

/-- What `rlp.Decode` stores into an empty interface: a byte slice or a slice of
such values. -/
inductive RlpItem where
  | str (b : Bytes)
  | list (items : List RlpItem)
  deriving Repr

/-- Go type `utils.Args`: one declared argument of an ABI method. -/
structure Args where
  Name : String
  RealTypeName : String
  deriving Repr, DecidableEq

/-- One entry of `utils.WasmAbi.Abi`. -/
structure AbiMethod where
  Method : String
  Args : List Args
  Return : String
  deriving Repr, DecidableEq

/-- Go type `exec.VMContext`, the fields `Run` touches. -/
structure VMContext where
  Addr : Bytes
  GasUsed : Nat
  GasLimit : Nat
  deriving Repr, DecidableEq

/-- Go type `Contract`, the fields `Run` touches. `Input = none` is a nil slice. -/
structure Contract where
  Code : Bytes
  Gas : Nat
  Input : Option Bytes
  address : Bytes
  deriving Repr, DecidableEq

/-- What `RunWithGasLimit` leaves behind: the raw result word, the error, the
machine after the call, and the gas counter of the machine's own context. That
context is the copy made at line 97, where `*in.vmContext` is passed by value,
so the counter is not the `in.vmContext.GasUsed` that `Run` reads at line 129. -/
structure RunOutput (V : Type) where
  res : Int
  err : Option GoError
  vm : V
  GasUsed : Nat

/-- The collaborators of the file, none of which is under `src/`. -/
structure Engine (V : Type) where
  /-- Go `rlp.Decode` into an empty interface. -/
  rlpDecode : Bytes → Except GoError RlpItem
  /-- Method `utils.WasmAbi.FromJson`: the `Abi` array, or an error. -/
  FromJson : Bytes → Except GoError (List AbiMethod)
  /-- Go `strings.EqualFold`. -/
  EqualFold : String → String → Bool
  /-- Function `bytes2int64` of package `vm`. -/
  bytes2int64 : Bytes → Int
  /-- Function `utils.BytesToInt64`. -/
  BytesToInt64 : Bytes → Int
  /-- Function `resolver.MallocString`: the offset of the copy, and the machine after. -/
  MallocString : V → String → Int × V
  /-- Function `exec.NewVirtualMachine`. -/
  NewVirtualMachine : Bytes → VMContext → Except GoError V
  /-- Method `VirtualMachine.GetFunctionExport`. -/
  GetFunctionExport : V → String → Option Int
  /-- Method `VirtualMachine.RunWithGasLimit`. -/
  RunWithGasLimit : V → Int → Int → List Int → RunOutput V
  /-- The slice `vm.Memory.Memory`. -/
  Memory : V → Bytes

/-- Calls that `Run` makes, recorded in order (ghost state). -/
inductive Event where
  | parseRlpData
  | NewVirtualMachine
  | parseInputFromAbi
  | GetFunctionExport
  | RunWithGasLimit
  deriving Repr, DecidableEq

/-- Go type `WASMInterpreter` with the state reachable from it that `Run` reads or
writes: `in.evm.depth`, `in.vmContext`, `in.lvm`, the contract behind
`in.wasmStateDB.contract` (the caller's `*Contract`), and the ghost trace. -/
structure WASMInterpreter (V : Type) where
  depth : Int
  vmContext : VMContext
  lvm : Option V
  contract : Contract
  trace : List Event

/-- How a Go call ends: a normal return of `(ret, err)`, or a panic that leaves
the function. A nil slice and an empty one are both `[]`. -/
inductive Outcome where
  | ret (ret : Bytes) (err : Option GoError)
  | panic (v : GoError)
  deriving Repr, DecidableEq

/-- The five results of `parseInputFromAbi`. -/
structure ParsedInput where
  txType : Int
  funcName : String
  params : List Int
  returnType : String
  err : Option GoError
  deriving Repr, DecidableEq

/-! ## Integers and bytes -/

/-- The value of a big-endian byte string, as `binary.BigEndian` reads it. -/
def beNat : Bytes → Nat
  | [] => 0
  | b :: bs => b.val * 256 ^ bs.length + beNat bs

/-- The `w` big-endian bytes of `n` modulo `256 ^ w`. -/
def bigEndian : Nat → Nat → Bytes
  | 0, _ => []
  | w + 1, n => bigEndian w (n / 256) ++ [Fin.ofNat (n % 256)]

/-- Go conversion `uint64(i)` of an `int64`: the 64-bit pattern. -/
def uint64 (i : Int) : Nat := (i % ((2 ^ 64 : Nat) : Int)).toNat

/-- Go conversion `int64(u)` of an unsigned value: two's complement on 64 bits. -/
def int64 (u : Nat) : Int :=
  if u % 2 ^ 64 < 2 ^ 63 then ((u % 2 ^ 64 : Nat) : Int)
  else ((u % 2 ^ 64 : Nat) : Int) - ((2 ^ 64 : Nat) : Int)

/-- Go conversion `string(b)`: the same bytes, one character each. -/
def goString (b : Bytes) : String := String.mk (b.map (fun x => Char.ofNat x.val))

/-- Modelled from the spec: `utils.Int64ToBytes` is not under `src/`; the raw word
is written as its eight big-endian bytes. -/
def utils.Int64ToBytes (i : Int) : Bytes := bigEndian 8 (uint64 i)

/-- Modelled from the spec: `common.Int64ToBytes` is not under `src/`; the value is
written as its eight big-endian bytes. -/
def common.Int64ToBytes (i : Int) : Bytes := bigEndian 8 (uint64 i)

/-- Modelled from the spec: `common.Int32ToBytes` is not under `src/`; the value is
written as its four big-endian bytes. -/
def common.Int32ToBytes (i : Int) : Bytes :=
  bigEndian 4 (i % ((2 ^ 32 : Nat) : Int)).toNat

/-- Modelled from the spec: `common.BytesToHash` followed by `Hash.Bytes` is not
under `src/`; the bytes are left-padded with zeros to one 32-byte word, and of a
longer input the last 32 bytes are kept. -/
def common.BytesToHash (b : Bytes) : Bytes :=
  List.replicate (32 - b.length) 0 ++ b.drop (b.length - 32)

/-- Go `binary.BigEndian.Uint16`: `none` is the bounds-check panic. -/
def Uint16 (b : Bytes) : Option Nat :=
  if 2 ≤ b.length then some (beNat (b.take 2)) else none

/-- Go `binary.BigEndian.Uint32`: `none` is the bounds-check panic. -/
def Uint32 (b : Bytes) : Option Nat :=
  if 4 ≤ b.length then some (beNat (b.take 4)) else none

/-- Go `binary.BigEndian.Uint64`: `none` is the bounds-check panic. -/
def Uint64 (b : Bytes) : Option Nat :=
  if 8 ≤ b.length then some (beNat (b.take 8)) else none

/-- Go builtin `copy(dst, src)`: the first `min (len dst) (len src)` bytes of `dst`
are overwritten. -/
def copy (dst src : Bytes) : Bytes := src.take dst.length ++ dst.drop src.length

/-- The type assertion `v, ok := l[i].([]byte)`: `none` when `ok` is false. The
callers have checked that `i` is within the list. -/
def bytesAt (l : List RlpItem) (i : Nat) : Option Bytes :=
  match l.get? i with
  | some (RlpItem.str v) => some v
  | _ => none

/-! ## `parseRlpData` (lines 268-302) -/

/-- Function `parseRlpData`: `(txType, abi, code, err)`, in the order of the
`return` statement at line 301. -/
def parseRlpData {V : Type} (E : Engine V) (rlpData : Bytes) :
    Int × Bytes × Bytes × Option GoError :=
  match E.rlpDecode rlpData with
  | .error err => (-1, [], [], some err)
  | .ok (.str _) => (-1, [], [], some "invalid rlp format.")
  | .ok (.list iRlpList) =>
    if iRlpList.length ≤ 2 then
      (-1, [], [], some "invalid input. ele must greater than 2")
    else
      let txType : Int :=
        match bytesAt iRlpList 0 with
        | some v => E.BytesToInt64 v
        | none => 0
      let code : Bytes :=
        match bytesAt iRlpList 1 with
        | some v => v
        | none => []
      let abi : Bytes :=
        match bytesAt iRlpList 2 with
        | some v => v
        | none => []
      (txType, abi, code, none)

/-! ## `parseInputFromAbi` (lines 181-266) -/

/-- The loop at lines 226-232: the arguments and return type of the first entry
whose method name folds to `funcName`; both stay at their zero values when no
entry does. -/
def lookupMethod {V : Type} (E : Engine V) (funcName : String) :
    List AbiMethod → List Args × String
  | [] => ([], "")
  | v :: rest =>
    if E.EqualFold funcName v.Method then (v.Args, v.Return)
    else lookupMethod E funcName rest

/-- One round of the loop at lines 240-263: the type assertion on the raw
argument, then the `switch` on `RealTypeName`. `Except.error` is a panic. -/
def convertArg {V : Type} (E : Engine V) (vm : V) (v : Args) (raw : RlpItem)
    (params : List Int) : Except GoError (List Int) × V :=
  match raw with
  | .list _ => (.error "interface conversion: not a byte slice", vm)
  | .str bts =>
    if v.RealTypeName = "string" then
      let r := E.MallocString vm (goString bts)
      (.ok (params ++ [r.1]), r.2)
    else if v.RealTypeName = "int8" then
      match bts.head? with
      | some b => (.ok (params ++ [int64 b.val]), vm)
      | none => (.error "index out of range", vm)
    else if v.RealTypeName = "int16" then
      match Uint16 bts with
      | some u => (.ok (params ++ [int64 u]), vm)
      | none => (.error "index out of range", vm)
    else if v.RealTypeName = "int32" ∨ v.RealTypeName = "int" then
      match Uint32 bts with
      | some u => (.ok (params ++ [int64 u]), vm)
      | none => (.error "index out of range", vm)
    else if v.RealTypeName = "int64" then
      match Uint64 bts with
      | some u => (.ok (params ++ [int64 u]), vm)
      | none => (.error "index out of range", vm)
    else if v.RealTypeName = "uint8" then
      match bts.head? with
      | some b => (.ok (params ++ [int64 b.val]), vm)
      | none => (.error "index out of range", vm)
    else if v.RealTypeName = "uint32" ∨ v.RealTypeName = "uint" then
      match Uint32 bts with
      | some u => (.ok (params ++ [int64 u]), vm)
      | none => (.error "index out of range", vm)
    else if v.RealTypeName = "uint64" then
      match Uint64 bts with
      | some u => (.ok (params ++ [int64 u]), vm)
      | none => (.error "index out of range", vm)
    else if v.RealTypeName = "bool" then
      match bts.head? with
      | some b => (.ok (params ++ [int64 b.val]), vm)
      | none => (.error "index out of range", vm)
    else
      (.ok params, vm)

/-- The loop at lines 240-263 over `args`, indexing `argsRlp` in step. -/
def convertArgs {V : Type} (E : Engine V) :
    List Args → List RlpItem → V → List Int → Except GoError (List Int) × V
  | [], _, vm, params => (.ok params, vm)
  | _ :: _, [], vm, _ => (.error "index out of range", vm)
  | v :: vs, raw :: rest, vm, params =>
    match convertArg E vm v raw params with
    | (.ok params1, vm1) => convertArgs E vs rest vm1 params1
    | (.error e, vm1) => (.error e, vm1)

/-- The results of the `return -1, "", nil, "", err` statements and of the `recover`
in the deferred function. -/
def parseFail (err : GoError) : ParsedInput :=
  { txType := -1, funcName := "", params := [], returnType := "", err := some err }

/-- Function `parseInputFromAbi`: its five results and the machine after the
call (string arguments are allocated in its memory). A panic of the loop is
recovered by the deferred function at lines 183-188. -/
def parseInputFromAbi {V : Type} (E : Engine V) (vm : V) (input : Option Bytes)
    (abi : Bytes) : ParsedInput × V :=
  match input with
  | none => (parseFail "invalid input.", vm)
  | some inp =>
    if inp.length ≤ 1 then (parseFail "invalid input.", vm)
    else
      match E.rlpDecode inp with
      | .error err => (parseFail err, vm)
      | .ok (.str _) => (parseFail "invalid rlp format.", vm)
      | .ok (.list iRlpList) =>
        if iRlpList.length < 2 then
          (parseFail "invalid input. ele must greater than 2", vm)
        else
          match E.FromJson abi with
          | .error _ => (parseFail "invalid abi, encoded fail.", vm)
          | .ok wasmabi =>
            let txType : Int :=
              match bytesAt iRlpList 0 with
              | some v => E.bytes2int64 v
              | none => 0
            let funcName : String :=
              match bytesAt iRlpList 1 with
              | some v => goString v
              | none => ""
            let found := lookupMethod E funcName wasmabi
            let args := found.1
            let returnType := found.2
            let argsRlp := iRlpList.drop 2
            if args.length ≠ argsRlp.length then
              ({ txType := -1, funcName := "", params := [], returnType := returnType,
                 err := some "invalid input or invalid abi." }, vm)
            else
              match convertArgs E args argsRlp vm [] with
              | (.error e, vm1) => (parseFail e, vm1)
              | (.ok params, vm1) =>
                ({ txType := txType, funcName := funcName, params := params,
                   returnType := returnType, err := none }, vm1)

/-! ## `WASMInterpreter.Run` (lines 72-173) -/

/-- The bytes of the loop at lines 146-151: `copyData` up to its first zero byte. -/
def readString (copyData : Bytes) : Bytes := copyData.takeWhile (fun v => v ≠ 0)

/-- Lines 157-160: the payload length rounded up to a multiple of 32. -/
def dataRealSize (n : Nat) : Nat :=
  if n % 32 ≠ 0 then n + (32 - n % 32) else n

/-- Lines 144-170, the `case "string"` arm once `copyData` is in hand. -/
def encodeString (copyData : Bytes) : Bytes :=
  let returnBytes := readString copyData
  let strHash := common.BytesToHash (common.Int32ToBytes 32)
  let sizeHash := common.BytesToHash (common.Int64ToBytes (returnBytes.length : Int))
  let dataByt := copy (List.replicate (dataRealSize returnBytes.length) 0) returnBytes
  strHash ++ sizeHash ++ dataByt

/-- Lines 138-172: the `switch` on the return type. The slice expression
`Memory[res:]` panics when `res` is negative or beyond the end of memory. -/
def encodeReturn (returnType : String) (res : Int) (memory : Bytes) : Outcome :=
  if returnType = "void" ∨ returnType = "int8" ∨ returnType = "int" ∨
      returnType = "int32" ∨ returnType = "int64" then
    .ret (common.BytesToHash (utils.Int64ToBytes res)) none
  else if returnType = "string" then
    if 0 ≤ res ∧ res ≤ (memory.length : Int) then
      .ret (encodeString (memory.drop res.toNat)) none
    else
      .panic "slice bounds out of range"
  else
    .ret [] none

/-- Lines 120-172: entry lookup, execution, the gas check and the result. The gas
check and the deduction at lines 129-130 read `in.vmContext.GasUsed`, the
interpreter's own counter, which no statement of `Run` writes and which the
machine, holding a copy of the context, cannot reach. -/
def execute {V : Type} (E : Engine V) (s : WASMInterpreter V) (vm : V)
    (input : Option Bytes) (funcName : String) (params : List Int)
    (returnType : String) : Outcome × WASMInterpreter V :=
  let s1 := { s with trace := s.trace ++ [Event.GetFunctionExport] }
  match E.GetFunctionExport vm funcName with
  | none => (.ret [] (some "entryId not found."), s1)
  | some entryID =>
    let out := E.RunWithGasLimit vm entryID (int64 s1.vmContext.GasLimit) params
    let s2 := { s1 with
      lvm := some out.vm
      trace := s1.trace ++ [Event.RunWithGasLimit] }
    match out.err with
    | some err => (.ret [] (some err), s2)
    | none =>
      if s2.contract.Gas > s2.vmContext.GasUsed then
        let s3 := { s2 with
          contract := { s2.contract with Gas := s2.contract.Gas - s2.vmContext.GasUsed } }
        match input with
        | none => (.ret s3.contract.Code none, s3)
        | some _ => (encodeReturn returnType out.res (E.Memory out.vm), s3)
      else
        (.ret [] (some "out of gas."), s2)

/-- Lines 85-173, the body of `Run` between `in.evm.depth++` and the deferred
`in.evm.depth--`. -/
def runBody {V : Type} (E : Engine V) (s : WASMInterpreter V) (input : Option Bytes) :
    Outcome × WASMInterpreter V :=
  if s.contract.Code.length = 0 then (.ret [] none, s)
  else
    let s1 := { s with trace := s.trace ++ [Event.parseRlpData] }
    match parseRlpData E s1.contract.Code with
    | (_, _, _, some er) => (.ret [] (some er), s1)
    | (_, abi, code, none) =>
      let ctx : VMContext :=
        { s1.vmContext with Addr := s1.contract.address, GasLimit := s1.contract.Gas }
      let s2 := { s1 with vmContext := ctx, trace := s1.trace ++ [Event.NewVirtualMachine] }
      match E.NewVirtualMachine code ctx with
      | .error err => (.ret [] (some err), { s2 with lvm := none })
      | .ok vm =>
        let s3 := { s2 with lvm := some vm, contract := { s2.contract with Input := input } }
        match input with
        | none => execute E s3 vm input "init" [] ""
        | some _ =>
          let s4 := { s3 with trace := s3.trace ++ [Event.parseInputFromAbi] }
          match parseInputFromAbi E vm input abi with
          | (p, vm1) =>
            let s5 := { s4 with lvm := some vm1 }
            match p.err with
            | some err => (.ret [] (some err), s5)
            | none => execute E s5 vm1 input p.funcName p.params p.returnType

/-- Method `WASMInterpreter.Run`. The contract is installed, the call depth is
raised, the body runs, and the deferred function lowers the depth again whether
the body returned or panicked. The `readOnly` flag is not read. -/
def Run {V : Type} (E : Engine V) (s : WASMInterpreter V) (contract : Contract)
    (input : Option Bytes) (_readOnly : Bool) : Outcome × WASMInterpreter V :=
  let s1 := { s with contract := contract, depth := s.depth + 1 }
  let r := runBody E s1 input
  (r.1, { r.2 with depth := r.2.depth - 1 })

/-! ## A concrete engine

The theorems below hold for every engine. To evaluate the code on concrete
inputs, the collaborators are instantiated: RLP as Ethereum defines it, and a
minimal machine whose exports, result word, gas use and memory are given. -/

/-- Modelled from the spec: `rlp.Decode` is not under `src/`. The header of the
first item of a length-prefixed nested byte-string/list encoding: whether it is a
list, its payload, and the bytes after it. Sizes must be canonical. -/
def rlpSplit : Bytes → Option (Bool × Bytes × Bytes)
  | [] => none
  | b0 :: rest =>
    if b0.val < 0x80 then some (false, [b0], rest)
    else if b0.val < 0xb8 then
      let n := b0.val - 0x80
      if rest.length < n then none
      else if n = 1 ∧ (rest.take 1).all (fun x => decide (x.val < 0x80)) then none
      else some (false, rest.take n, rest.drop n)
    else if b0.val < 0xc0 then
      let ll := b0.val - 0xb7
      let n := beNat (rest.take ll)
      if rest.length < ll then none
      else if (rest.take 1).all (fun x => decide (x.val = 0)) then none
      else if n < 56 then none
      else if (rest.drop ll).length < n then none
      else some (false, (rest.drop ll).take n, (rest.drop ll).drop n)
    else if b0.val < 0xf8 then
      let n := b0.val - 0xc0
      if rest.length < n then none
      else some (true, rest.take n, rest.drop n)
    else
      let ll := b0.val - 0xf7
      let n := beNat (rest.take ll)
      if rest.length < ll then none
      else if (rest.take 1).all (fun x => decide (x.val = 0)) then none
      else if n < 56 then none
      else if (rest.drop ll).length < n then none
      else some (true, (rest.drop ll).take n, (rest.drop ll).drop n)

/-- Modelled from the spec: `rlp.Decode` is not under `src/`. All the items of a
list payload, in order; the fuel bounds the nesting and the item count. -/
def rlpItems : Nat → Bytes → Option (List RlpItem)
  | 0, _ => none
  | _ + 1, [] => some []
  | fuel + 1, b :: bs =>
    match rlpSplit (b :: bs) with
    | none => none
    | some (false, payload, rest) =>
      match rlpItems fuel rest with
      | none => none
      | some items => some (RlpItem.str payload :: items)
    | some (true, payload, rest) =>
      match rlpItems fuel payload, rlpItems fuel rest with
      | some inner, some items => some (RlpItem.list inner :: items)
      | _, _ => none

/-- Modelled from the spec: `rlp.Decode` is not under `src/`. The first item of the
input, decoded into the nested value; bytes after it are not read. -/
def rlpDecode (b : Bytes) : Except GoError RlpItem :=
  match rlpSplit b with
  | none => .error "rlp: invalid input"
  | some (false, payload, _) => .ok (RlpItem.str payload)
  | some (true, payload, _) =>
    match rlpItems (payload.length + 1) payload with
    | none => .error "rlp: invalid input"
    | some items => .ok (RlpItem.list items)

/-- The bytes of an ASCII text. -/
def ascii (s : String) : Bytes := s.data.map (fun c => Fin.ofNat c.toNat)

/-- A minimal machine: linear memory and exported entry names. -/
structure Machine where
  memory : Bytes
  exports : List String
  deriving Repr, DecidableEq

/-- An engine over `Machine`. The ABI parser knows one document, `abiJson`, whose
content is `abi`; every module instantiates to a machine exporting `exports`;
running any entry yields `res`, counts `gasUsed` gas in the machine's own context
and leaves `memory` behind;
strings are allocated at the end of memory with a terminating zero byte; names
are folded as ASCII. -/
def sampleEngine (abiJson : Bytes) (abi : List AbiMethod) (exports : List String)
    (res : Int) (gasUsed : Nat) (memory : Bytes) : Engine Machine where
  rlpDecode := rlpDecode
  FromJson := fun b => if b = abiJson then .ok abi else .error "invalid character"
  EqualFold := fun a b => decide (a.data.map Char.toLower = b.data.map Char.toLower)
  bytes2int64 := fun b => int64 (beNat b)
  BytesToInt64 := fun b => int64 (beNat b)
  MallocString := fun vm str =>
    ((vm.memory.length : Int), { vm with memory := vm.memory ++ ascii str ++ [0] })
  NewVirtualMachine := fun _ _ => .ok { memory := [], exports := exports }
  GetFunctionExport := fun vm name =>
    if vm.exports.indexOf name < vm.exports.length then some (vm.exports.indexOf name : Int)
    else none
  RunWithGasLimit := fun vm _ _ _ =>
    { res := res, err := none, vm := { vm with memory := memory }, GasUsed := gasUsed }
  Memory := fun vm => vm.memory

/-- The ABI document of the sample contract. -/
def sampleAbiJson : Bytes :=
  ascii ("[\x7b\"method\":\"set\",\"args\":[\x7b\"name\":\"a\",\"realTypeName\":\"int16\"\x7d]," ++
    "\"return\":\"void\"\x7d,\x7b\"method\":\"name\",\"args\":[],\"return\":\"string\"\x7d," ++
    "\x7b\"method\":\"half\",\"args\":[],\"return\":\"int16\"\x7d,\x7b\"method\":\"add\"," ++
    "\"args\":[\x7b\"name\":\"x\",\"realTypeName\":\"int64\"\x7d,\x7b\"name\":\"y\"," ++
    "\"realTypeName\":\"uint8\"\x7d],\"return\":\"int64\"\x7d]")

/-- The content of `sampleAbiJson`. -/
def sampleAbi : List AbiMethod :=
  [ { Method := "set", Args := [{ Name := "a", RealTypeName := "int16" }], Return := "void" },
    { Method := "name", Args := [], Return := "string" },
    { Method := "half", Args := [], Return := "int16" },
    { Method := "add",
      Args := [{ Name := "x", RealTypeName := "int64" }, { Name := "y", RealTypeName := "uint8" }],
      Return := "int64" } ]

/-- The four bytes of the sample module. -/
def sampleBytecode : Bytes := [0x00, 0x61, 0x73, 0x6d]

/-- The stored code of the sample contract: the RLP list of transaction type 1,
`sampleBytecode` and `sampleAbiJson` (a 294-byte payload, the document being 285
bytes long). -/
def sampleCode : Bytes :=
  [0xf9, 0x01, 0x26, 0x01, 0x84] ++ sampleBytecode ++ [0xb9, 0x01, 0x1d] ++ sampleAbiJson

/-- The sample contract with a gas budget. -/
def sampleContract (gas : Nat) : Contract :=
  { Code := sampleCode, Gas := gas, Input := none, address := [] }

/-- The engine of the sample contract: its entries are `init`, `set`, `name`,
`half` and `add`. -/
def sampleVM (res : Int) (gasUsed : Nat) (memory : Bytes) : Engine Machine :=
  sampleEngine sampleAbiJson sampleAbi ["init", "set", "name", "half", "add"] res gasUsed memory

/-- An interpreter at rest. -/
def idle : WASMInterpreter Machine :=
  { depth := 0, vmContext := { Addr := [], GasUsed := 0, GasLimit := 0 }, lvm := none,
    contract := { Code := [], Gas := 0, Input := none, address := [] }, trace := [] }

/-- The ABI document of a second sample contract, whose one method `mix` declares
an argument of type uint16 and one of type float32, neither among the `case`
labels of the conversion loop, around one of type int32. -/
def mixAbiJson : Bytes :=
  ascii ("[\x7b\"method\":\"mix\",\"args\":[\x7b\"name\":\"h\",\"realTypeName\":\"uint16" ++
    "\"\x7d,\x7b\"name\":\"n\",\"realTypeName\":\"int32\"\x7d,\x7b\"name\":\"r\",\"" ++
    "realTypeName\":\"float32\"\x7d],\"return\":\"void\"\x7d]")

/-- The content of `mixAbiJson`. -/
def mixAbi : List AbiMethod :=
  [ { Method := "mix",
      Args := [{ Name := "h", RealTypeName := "uint16" }, { Name := "n", RealTypeName := "int32" },
        { Name := "r", RealTypeName := "float32" }],
      Return := "void" } ]

/-- The engine of the second sample contract. -/
def mixVM : Engine Machine :=
  sampleEngine mixAbiJson mixAbi ["init", "mix"] 0 0 []

/-! ## The bundle encoder -/

/-- Modelled from the spec: `utils.BytesToInt64` is not under `src/`; the
transaction type is the big-endian integer of its byte-string, as an `int64`. -/
def utils.BytesToInt64 (b : Bytes) : Int := int64 (beNat b)

/-- The bytes after the leading zero bytes. -/
def trimZeros : Bytes → Bytes
  | [] => []
  | b :: bs => if b = 0 then trimZeros bs else b :: bs

/-- Modelled from the spec: the encoder of the nested byte-string/list encoding is
not under `src/`. The header of an item with a payload of `n` bytes: one byte
`offset + n` when `n < 56`, else the byte `offset + 55 + k` followed by the `k`
big-endian bytes of `n` without leading zeros; `offset` is 0x80 for a
byte-string and 0xc0 for a list. -/
def rlpHeader (offset n : Nat) : Bytes :=
  if n < 56 then [Fin.ofNat (offset + n)]
  else
    Fin.ofNat (offset + 55 + (trimZeros (bigEndian 8 n)).length) :: trimZeros (bigEndian 8 n)

/-- Modelled from the spec: the encoder is not under `src/`. A byte-string: a
single byte below 0x80 stands for itself, any other string follows its header. -/
def rlpEncodeBytes : Bytes → Bytes
  | [x] => if x.val < 0x80 then [x] else rlpHeader 0x80 1 ++ [x]
  | b => rlpHeader 0x80 b.length ++ b

/-- Modelled from the spec: the encoder is not under `src/`. The payload of a list
of byte-strings: their encodings, in order. -/
def rlpEncodePayload : List Bytes → Bytes
  | [] => []
  | b :: bs => rlpEncodeBytes b ++ rlpEncodePayload bs

/-- Modelled from the spec: the encoder is not under `src/`. A list of
byte-strings: the list header, then the payload. -/
def rlpEncodeList (items : List Bytes) : Bytes :=
  rlpHeader 0xc0 (rlpEncodePayload items).length ++ rlpEncodePayload items

/-- Modelled from the spec: the bundle `[txType, bytecode, abiJson]` as the caller
produces it at deploy time, the transaction type as its eight big-endian bytes. -/
def encodeBundle (txType : Int) (bytecode abiJson : Bytes) : Bytes :=
  rlpEncodeList [utils.Int64ToBytes txType, bytecode, abiJson]

/-! ## Sequences of calls -/

/-- A sequence of calls of `Run` on one interpreter, each with its own contract,
input and flag; the results of the calls are dropped, the state is threaded. -/
def runSequence {V : Type} (E : Engine V) (s : WASMInterpreter V) :
    List (Contract × Option Bytes × Bool) → WASMInterpreter V
  | [] => s
  | c :: rest => runSequence E (Run E s c.1 c.2.1 c.2.2).2 rest

/-! ## Vocabulary of the claims on argument conversion -/

/-- The type names of the `case` labels at lines 243-261. -/
def recognised : List String :=
  ["string", "int8", "int16", "int32", "int", "int64", "uint8", "uint32", "uint", "uint64",
    "bool"]

/-- The number of leading bytes of the raw argument that the round of the loop for
a type reads: `bts[0]` reads one, `Uint16` two, `Uint32` four, `Uint64` eight; a
string is copied whole, whatever its length. -/
def needed (typ : String) : Nat :=
  if typ = "int8" ∨ typ = "uint8" ∨ typ = "bool" then 1
  else if typ = "int16" then 2
  else if typ = "int32" ∨ typ = "int" ∨ typ = "uint32" ∨ typ = "uint" then 4
  else if typ = "int64" ∨ typ = "uint64" then 8
  else 0

/-! ## Big-endian words -/

theorem bigEndian_length (w n : Nat) : (bigEndian w n).length = w := by
  induction w generalizing n with
  | zero => rfl
  | succ w ih => simp [bigEndian, ih]

theorem beNat_append (a b : Bytes) :
    beNat (a ++ b) = beNat a * 256 ^ b.length + beNat b := by
  induction a with
  | nil => simp [beNat]
  | cons x xs ih =>
    have e : (x :: xs) ++ b = x :: (xs ++ b) := rfl
    rw [e]
    simp only [beNat, ih, List.length_append]
    rw [pow_add]; ring

theorem beNat_bigEndian (w n : Nat) : beNat (bigEndian w n) = n % 256 ^ w := by
  induction w generalizing n with
  | zero => simp [bigEndian, beNat, Nat.mod_one]
  | succ w ih =>
    have hv : ((Fin.ofNat (n % 256) : Byte)).val = n % 256 := by
      simp [Fin.ofNat]
    rw [bigEndian, beNat_append, ih]
    simp only [List.length_singleton, beNat, List.length_nil, pow_zero, mul_one, add_zero,
      pow_one, hv]
    rw [pow_succ, Nat.mul_comm (256 ^ w) 256, Nat.mod_mul]
    omega

theorem bigEndian_zero_eq (k : Nat) : bigEndian k 0 = List.replicate k (0 : Byte) := by
  induction k with
  | zero => rfl
  | succ k ih =>
    simp only [bigEndian, Nat.zero_div, ih, Nat.zero_mod]
    rw [List.replicate_succ']
    rfl

theorem replicate_append_bigEndian (k w n : Nat) (h : n < 256 ^ w) :
    List.replicate k (0 : Byte) ++ bigEndian w n = bigEndian (k + w) n := by
  induction w generalizing n with
  | zero =>
    have : n = 0 := by simpa using h
    subst this
    simp [bigEndian, bigEndian_zero_eq]
  | succ w ih =>
    have h2 : n / 256 < 256 ^ w := by
      rw [Nat.div_lt_iff_lt_mul (by norm_num)]
      rw [pow_succ] at h; exact h
    rw [← Nat.add_assoc]
    simp only [bigEndian, ← List.append_assoc, ih _ h2]

theorem beNat_replicate_zero (k : Nat) (b : Bytes) :
    beNat (List.replicate k (0 : Byte) ++ b) = beNat b := by
  induction k with
  | zero => simp
  | succ k ih =>
    have e : List.replicate (k + 1) (0 : Byte) ++ b = 0 :: (List.replicate k (0 : Byte) ++ b) := rfl
    rw [e, beNat, ih]; simp

/-! ## The paths of `Run` -/

theorem Run_call {V : Type} (E : Engine V) (s : WASMInterpreter V) (contract : Contract)
    (inp : Bytes) (flag : Bool) (t : Int) (abi code : Bytes) (vm vm1 : V) (p : ParsedInput)
    (entryID : Int)
    (h0 : contract.Code.length ≠ 0)
    (h1 : parseRlpData E contract.Code = (t, abi, code, none))
    (h2 : E.NewVirtualMachine code
      { s.vmContext with Addr := contract.address, GasLimit := contract.Gas } = .ok vm)
    (h3 : parseInputFromAbi E vm (some inp) abi = (p, vm1))
    (h4 : p.err = none)
    (h5 : E.GetFunctionExport vm1 p.funcName = some entryID)
    (h6 : (E.RunWithGasLimit vm1 entryID (int64 contract.Gas) p.params).err = none) :
    (Run E s contract (some inp) flag).1 =
      (if contract.Gas > s.vmContext.GasUsed
        then encodeReturn p.returnType
          (E.RunWithGasLimit vm1 entryID (int64 contract.Gas) p.params).res
          (E.Memory (E.RunWithGasLimit vm1 entryID (int64 contract.Gas) p.params).vm)
        else .ret [] (some "out of gas.")) ∧
    (Run E s contract (some inp) flag).2.contract.Gas =
      (if contract.Gas > s.vmContext.GasUsed then contract.Gas - s.vmContext.GasUsed
        else contract.Gas) := by
  simp only [Run, runBody, h0, if_false, h1, h2, h3, h4, execute, h5, h6]
  split <;> simp

/-! ## The return value encoder -/

theorem uint64_natCast (n : Nat) (h : n < 2 ^ 64) : uint64 (n : Int) = n := by
  unfold uint64
  rw [← Int.natCast_mod, Int.toNat_ofNat, Nat.mod_eq_of_lt h]

theorem BytesToHash_Int64ToBytes (i : Int) :
    common.BytesToHash (utils.Int64ToBytes i) =
      List.replicate 24 (0 : Byte) ++ bigEndian 8 (uint64 i) := by
  simp [common.BytesToHash, utils.Int64ToBytes, bigEndian_length]

theorem encodeReturn_fixed (returnType : String) (res : Int) (memory : Bytes)
    (h : returnType ∈ ["void", "int8", "int", "int32", "int64"]) :
    encodeReturn returnType res memory =
      .ret (List.replicate 24 (0 : Byte) ++ bigEndian 8 (uint64 res)) none := by
  have h1 : returnType = "void" ∨ returnType = "int8" ∨ returnType = "int" ∨
      returnType = "int32" ∨ returnType = "int64" := by simpa using h
  rw [encodeReturn, if_pos h1, BytesToHash_Int64ToBytes]

theorem dataRealSize_eq (n : Nat) : dataRealSize n = (n + 31) / 32 * 32 := by
  unfold dataRealSize
  split <;> omega

theorem encodeString_eq (copyData : Bytes)
    (h : (copyData.takeWhile (fun v => v ≠ 0)).length < 2 ^ 64) :
    encodeString copyData =
      bigEndian 32 32 ++ bigEndian 32 (copyData.takeWhile (fun v => v ≠ 0)).length ++
        copyData.takeWhile (fun v => v ≠ 0) ++
        List.replicate (((copyData.takeWhile (fun v => v ≠ 0)).length + 31) / 32 * 32 -
          (copyData.takeWhile (fun v => v ≠ 0)).length) 0 := by
  have e1 : common.BytesToHash (common.Int32ToBytes 32) = bigEndian 32 32 := by decide
  have e2 : ∀ n : Nat, n < 2 ^ 64 →
      common.BytesToHash (common.Int64ToBytes (n : Int)) = bigEndian 32 n := by
    intro n hn
    simp only [common.BytesToHash, common.Int64ToBytes, bigEndian_length, uint64_natCast n hn]
    have := replicate_append_bigEndian 24 8 n (by norm_num at hn ⊢; exact hn)
    simpa using this
  have e3 : ∀ p : Bytes, copy (List.replicate (dataRealSize p.length) 0) p =
      p ++ List.replicate ((p.length + 31) / 32 * 32 - p.length) 0 := by
    intro p
    have hle : p.length ≤ (p.length + 31) / 32 * 32 := by omega
    simp only [copy, List.length_replicate, List.drop_replicate, dataRealSize_eq,
      List.take_of_length_le hle]
  simp only [encodeString, readString, e1, e2 _ h, e3, List.append_assoc]

/-! ## Claims on the return value -/

set_option maxRecDepth 100000

/-- C1: on a non-deployment call that executes within gas, with declared return
type "string" and a raw result word `w` that is an offset within the machine's
memory, let `payload` be the bytes of memory from `w` up to but excluding the first
zero byte (or the end of memory). The result of `Run` is the 32-byte word 32, the
32-byte word of the payload length, then the payload padded with zero bytes to the
next multiple of 32; its length is `32 + 32 + ceil (len payload / 32) * 32`. -/
theorem Run_string_return {V : Type} (E : Engine V) (s : WASMInterpreter V)
    (contract : Contract) (inp : Bytes) (flag : Bool) (t : Int) (abi code : Bytes)
    (vm vm1 : V) (p : ParsedInput) (entryID : Int) (out : RunOutput V)
    (w : Int) (memory payload : Bytes)
    (h0 : contract.Code.length ≠ 0)
    (h1 : parseRlpData E contract.Code = (t, abi, code, none))
    (h2 : E.NewVirtualMachine code
      { s.vmContext with Addr := contract.address, GasLimit := contract.Gas } = .ok vm)
    (h3 : parseInputFromAbi E vm (some inp) abi = (p, vm1))
    (h4 : p.err = none)
    (h5 : E.GetFunctionExport vm1 p.funcName = some entryID)
    (h6 : E.RunWithGasLimit vm1 entryID (int64 contract.Gas) p.params = out)
    (h7 : out.err = none)
    (h8 : s.vmContext.GasUsed < contract.Gas)
    (hrt : p.returnType = "string")
    (hw : out.res = w)
    (hm : E.Memory out.vm = memory)
    (hlen : memory.length < 2 ^ 63)
    (hlo : 0 ≤ w)
    (hhi : w ≤ (memory.length : Int))
    (hp : payload = (memory.drop w.toNat).takeWhile (fun v => v ≠ 0)) :
    (Run E s contract (some inp) flag).1 =
        .ret (bigEndian 32 32 ++ bigEndian 32 payload.length ++ payload ++
          List.replicate ((payload.length + 31) / 32 * 32 - payload.length) 0) none ∧
      (bigEndian 32 32 ++ bigEndian 32 payload.length ++ payload ++
          List.replicate ((payload.length + 31) / 32 * 32 - payload.length) (0 : Byte)).length =
        32 + 32 + (payload.length + 31) / 32 * 32 := by
  have hrun := (Run_call E s contract inp flag t abi code vm vm1 p entryID h0 h1 h2 h3 h4 h5
    (by rw [h6]; exact h7)).1
  rw [h6, if_pos h8, hw, hm, hrt] at hrun
  have hpl : payload.length < 2 ^ 64 := by
    have h1 : payload.length ≤ (memory.drop w.toNat).length := by
      rw [hp]; exact (List.takeWhile_sublist _).length_le
    have h2 : (memory.drop w.toNat).length ≤ memory.length := by
      rw [List.length_drop]; omega
    omega
  constructor
  · rw [hrun, encodeReturn, if_neg (by decide), if_pos rfl, if_pos ⟨hlo, hhi⟩,
      encodeString_eq _ (by rw [← hp]; exact hpl), ← hp]
  · simp only [List.length_append, bigEndian_length, List.length_replicate]
    omega

/-- The sample contract's `name` entry returns offset 1 of a memory holding "hi". -/
theorem Run_string_return_witness :
    (Run (sampleVM 1 3 [7, 0x68, 0x69, 0, 9]) idle (sampleContract 10)
        (some [0xc6, 0x01, 0x84, 0x6e, 0x61, 0x6d, 0x65]) false).1 =
        .ret (bigEndian 32 32 ++ bigEndian 32 2 ++ [0x68, 0x69] ++ List.replicate 30 0) none ∧
      (bigEndian 32 32 ++ bigEndian 32 2 ++ [0x68, 0x69] ++ List.replicate 30 (0 : Byte)).length =
        96 :=
  Run_string_return (sampleVM 1 3 [7, 0x68, 0x69, 0, 9]) idle (sampleContract 10)
    [0xc6, 0x01, 0x84, 0x6e, 0x61, 0x6d, 0x65] false 1 sampleAbiJson sampleBytecode
    { memory := [], exports := ["init", "set", "name", "half", "add"] }
    { memory := [], exports := ["init", "set", "name", "half", "add"] }
    { txType := 1, funcName := "name", params := [], returnType := "string", err := none }
    2
    { res := 1, err := none,
      vm := { memory := [7, 0x68, 0x69, 0, 9], exports := ["init", "set", "name", "half", "add"] },
      GasUsed := 3 }
    1 [7, 0x68, 0x69, 0, 9] [0x68, 0x69]
    (by decide) (by decide) (by rfl) (by decide) (by decide) (by decide) (by rfl) (by decide)
    (by decide) (by decide) (by decide) (by decide) (by decide) (by decide) (by decide)
    (by decide)

theorem uint64_lt (i : Int) : uint64 i < 2 ^ 64 := by
  unfold uint64
  have h : (0 : Int) < ((2 ^ 64 : Nat) : Int) := by norm_num
  have h1 := Int.emod_lt_of_pos i h
  have h2 := Int.emod_nonneg i (ne_of_gt h)
  omega

theorem uint64_cast (i : Int) : (uint64 i : Int) = i % 2 ^ 64 := by
  unfold uint64
  have h : (0 : Int) < ((2 ^ 64 : Nat) : Int) := by norm_num
  have h2 := Int.emod_nonneg i (ne_of_gt h)
  rw [Int.toNat_of_nonneg h2]
  norm_num

/-- C2: on a non-deployment call that executes within gas, with declared return
type among "void", "int8", "int", "int32", "int64" and raw result word `w`, the
result of `Run` is 24 zero bytes followed by the eight big-endian bytes of the
64-bit pattern of `w`, and reading those 32 bytes as a big-endian unsigned
integer gives that pattern back. -/
theorem Run_fixed_return {V : Type} (E : Engine V) (s : WASMInterpreter V)
    (contract : Contract) (inp : Bytes) (flag : Bool) (t : Int) (abi code : Bytes)
    (vm vm1 : V) (p : ParsedInput) (entryID : Int) (out : RunOutput V) (w : Int)
    (h0 : contract.Code.length ≠ 0)
    (h1 : parseRlpData E contract.Code = (t, abi, code, none))
    (h2 : E.NewVirtualMachine code
      { s.vmContext with Addr := contract.address, GasLimit := contract.Gas } = .ok vm)
    (h3 : parseInputFromAbi E vm (some inp) abi = (p, vm1))
    (h4 : p.err = none)
    (h5 : E.GetFunctionExport vm1 p.funcName = some entryID)
    (h6 : E.RunWithGasLimit vm1 entryID (int64 contract.Gas) p.params = out)
    (h7 : out.err = none)
    (h8 : s.vmContext.GasUsed < contract.Gas)
    (hrt : p.returnType ∈ ["void", "int8", "int", "int32", "int64"])
    (hw : out.res = w) :
    (Run E s contract (some inp) flag).1 =
        .ret (List.replicate 24 0 ++ bigEndian 8 (uint64 w)) none ∧
      (List.replicate 24 (0 : Byte) ++ bigEndian 8 (uint64 w)).length = 32 ∧
      beNat (List.replicate 24 0 ++ bigEndian 8 (uint64 w)) = uint64 w ∧
      (uint64 w : Int) = w % 2 ^ 64 := by
  have hrun := (Run_call E s contract inp flag t abi code vm vm1 p entryID h0 h1 h2 h3 h4 h5
    (by rw [h6]; exact h7)).1
  rw [h6, if_pos h8, hw, encodeReturn_fixed _ _ _ hrt] at hrun
  refine ⟨hrun, ?_, ?_, uint64_cast w⟩
  · simp [bigEndian_length]
  · rw [beNat_replicate_zero, beNat_bigEndian]
    exact Nat.mod_eq_of_lt (by have := uint64_lt w; norm_num at this ⊢; exact this)

/-- The sample contract's `set` entry returns the word -2. -/
theorem Run_fixed_return_witness :
    (Run (sampleVM (-2) 3 []) idle (sampleContract 10)
        (some [0xc8, 0x01, 0x83, 0x73, 0x65, 0x74, 0x82, 0xff, 0xff]) false).1 =
        .ret (List.replicate 24 0 ++ bigEndian 8 (uint64 (-2))) none ∧
      (List.replicate 24 (0 : Byte) ++ bigEndian 8 (uint64 (-2))).length = 32 ∧
      beNat (List.replicate 24 0 ++ bigEndian 8 (uint64 (-2))) = uint64 (-2) ∧
      (uint64 (-2) : Int) = -2 % 2 ^ 64 :=
  Run_fixed_return (sampleVM (-2) 3 []) idle (sampleContract 10)
    [0xc8, 0x01, 0x83, 0x73, 0x65, 0x74, 0x82, 0xff, 0xff] false 1 sampleAbiJson sampleBytecode
    { memory := [], exports := ["init", "set", "name", "half", "add"] }
    { memory := [], exports := ["init", "set", "name", "half", "add"] }
    { txType := 1, funcName := "set", params := [65535], returnType := "void", err := none }
    1
    { res := -2, err := none,
      vm := { memory := [], exports := ["init", "set", "name", "half", "add"] },
      GasUsed := 3 }
    (-2)
    (by decide) (by decide) (by rfl) (by decide) (by decide) (by decide) (by rfl) (by decide)
    (by decide) (by decide) (by decide)

/-- C3, as the code has it: on a non-deployment call that executes within gas,
with declared return type among "int8", "int32", "int", "int64", "void", the
result of `Run` is exactly 32 bytes long. -/
theorem Run_fixed_types_length {V : Type} (E : Engine V) (s : WASMInterpreter V)
    (contract : Contract) (inp : Bytes) (flag : Bool) (t : Int) (abi code : Bytes)
    (vm vm1 : V) (p : ParsedInput) (entryID : Int) (out : RunOutput V)
    (h0 : contract.Code.length ≠ 0)
    (h1 : parseRlpData E contract.Code = (t, abi, code, none))
    (h2 : E.NewVirtualMachine code
      { s.vmContext with Addr := contract.address, GasLimit := contract.Gas } = .ok vm)
    (h3 : parseInputFromAbi E vm (some inp) abi = (p, vm1))
    (h4 : p.err = none)
    (h5 : E.GetFunctionExport vm1 p.funcName = some entryID)
    (h6 : E.RunWithGasLimit vm1 entryID (int64 contract.Gas) p.params = out)
    (h7 : out.err = none)
    (h8 : s.vmContext.GasUsed < contract.Gas)
    (hrt : p.returnType ∈ ["int8", "int32", "int", "int64", "void"]) :
    ∃ bytes : Bytes,
      (Run E s contract (some inp) flag).1 = .ret bytes none ∧ bytes.length = 32 := by
  have hrt2 : p.returnType ∈ ["void", "int8", "int", "int32", "int64"] := by
    simp only [List.mem_cons, List.mem_singleton, List.not_mem_nil, or_false] at hrt ⊢
    tauto
  have hrun := (Run_call E s contract inp flag t abi code vm vm1 p entryID h0 h1 h2 h3 h4 h5
    (by rw [h6]; exact h7)).1
  rw [h6, if_pos h8, encodeReturn_fixed _ _ _ hrt2] at hrun
  exact ⟨_, hrun, by simp [bigEndian_length]⟩

/-- The sample contract's `add` entry, declared "int64", returns the word 5. -/
theorem Run_fixed_types_length_witness :
    ∃ bytes : Bytes,
      (Run (sampleVM 5 3 []) idle (sampleContract 10)
        (some [0xd0, 0x01, 0x83, 0x61, 0x64, 0x64, 0x88, 0, 0, 0, 0, 0, 0, 0, 2, 0x81, 0x83])
        false).1 = .ret bytes none ∧ bytes.length = 32 :=
  Run_fixed_types_length (sampleVM 5 3 []) idle (sampleContract 10)
    [0xd0, 0x01, 0x83, 0x61, 0x64, 0x64, 0x88, 0, 0, 0, 0, 0, 0, 0, 2, 0x81, 0x83] false 1
    sampleAbiJson sampleBytecode
    { memory := [], exports := ["init", "set", "name", "half", "add"] }
    { memory := [], exports := ["init", "set", "name", "half", "add"] }
    { txType := 1, funcName := "add", params := [2, 131], returnType := "int64", err := none }
    4
    { res := 5, err := none,
      vm := { memory := [], exports := ["init", "set", "name", "half", "add"] },
      GasUsed := 3 }
    (by decide) (by decide) (by rfl) (by decide) (by decide) (by decide) (by rfl) (by decide)
    (by decide) (by decide)

/-- C3 as stated fails for "int16": the sample contract's `half` entry is declared
to return "int16", the call executes within gas (a budget of 10 against a
counter of 0, which leaves the budget at 10), and the result of `Run` is empty,
not 32 bytes long. -/
theorem Run_int16_return_empty :
    (parseInputFromAbi (sampleVM 5 3 [])
        { memory := [], exports := ["init", "set", "name", "half", "add"] }
        (some [0xc6, 0x01, 0x84, 0x68, 0x61, 0x6c, 0x66]) sampleAbiJson).1 =
        { txType := 1, funcName := "half", params := [], returnType := "int16", err := none } ∧
      (Run (sampleVM 5 3 []) idle (sampleContract 10)
        (some [0xc6, 0x01, 0x84, 0x68, 0x61, 0x6c, 0x66]) false).1 = .ret [] none ∧
      (Run (sampleVM 5 3 []) idle (sampleContract 10)
        (some [0xc6, 0x01, 0x84, 0x68, 0x61, 0x6c, 0x66]) false).2.contract.Gas = 10 := by
  refine ⟨by decide, by decide, by decide⟩

theorem encodeReturn_no_err (returnType : String) (res : Int) (memory bytes : Bytes)
    (e : GoError) : encodeReturn returnType res memory ≠ .ret bytes (some e) := by
  unfold encodeReturn
  split
  · simp
  · split
    · split <;> simp
    · simp

theorem Run_deploy {V : Type} (E : Engine V) (s : WASMInterpreter V) (contract : Contract)
    (flag : Bool) (t : Int) (abi code : Bytes) (vm : V) (entryID : Int)
    (h0 : contract.Code.length ≠ 0)
    (h1 : parseRlpData E contract.Code = (t, abi, code, none))
    (h2 : E.NewVirtualMachine code
      { s.vmContext with Addr := contract.address, GasLimit := contract.Gas } = .ok vm)
    (h5 : E.GetFunctionExport vm "init" = some entryID)
    (h6 : (E.RunWithGasLimit vm entryID (int64 contract.Gas) []).err = none) :
    (Run E s contract none flag).1 =
      (if contract.Gas > s.vmContext.GasUsed
        then .ret contract.Code none
        else .ret [] (some "out of gas.")) ∧
    (Run E s contract none flag).2.contract.Gas =
      (if contract.Gas > s.vmContext.GasUsed then contract.Gas - s.vmContext.GasUsed
        else contract.Gas) ∧
    (Run E s contract none flag).2.trace =
      s.trace ++ [Event.parseRlpData, Event.NewVirtualMachine, Event.GetFunctionExport,
        Event.RunWithGasLimit] := by
  simp only [Run, runBody, h0, if_false, h1, h2, execute, h5, h6]
  split <;> simp

theorem encodeReturn_ok (returnType : String) (res : Int) (memory : Bytes)
    (h : ¬ (returnType = "string" ∧ ¬ (0 ≤ res ∧ res ≤ (memory.length : Int)))) :
    ∃ bytes, encodeReturn returnType res memory = .ret bytes none := by
  unfold encodeReturn
  split
  · exact ⟨_, rfl⟩
  · split
    · rename_i hs
      split
      · exact ⟨_, rfl⟩
      · rename_i hr
        exact absurd ⟨hs, hr⟩ h
    · exact ⟨_, rfl⟩

/-- C4, as the code has it: let `gasUsed` be the `in.vmContext.GasUsed` that line
129 reads, the interpreter's own counter (`Run` does not write it, and the
machine works on the copy of the context made at line 97). Once the machine has
run the entry without error (deployment or not), `Run` fails with "out of gas."
if and only if `gasUsed >= contractGas`, and then the budget is left as it was.
For every `gasUsed < contractGas` the caller's budget becomes
`contractGas - gasUsed` and `Run` ends with the result: the contract code on
deployment, else the encoding of the raw word for the declared return type,
which is result bytes and no error unless the type is "string" and the word
lies outside memory. -/
theorem Run_gas_check {V : Type} (E : Engine V) (s : WASMInterpreter V)
    (contract : Contract) (input : Option Bytes) (flag : Bool) (t : Int) (abi code : Bytes)
    (vm vm1 : V) (funcName : String) (params : List Int) (returnType : String)
    (entryID : Int) (out : RunOutput V)
    (h0 : contract.Code.length ≠ 0)
    (h1 : parseRlpData E contract.Code = (t, abi, code, none))
    (h2 : E.NewVirtualMachine code
      { s.vmContext with Addr := contract.address, GasLimit := contract.Gas } = .ok vm)
    (h3 : (input = none ∧ vm1 = vm ∧ funcName = "init" ∧ params = []) ∨
      ∃ inp p, input = some inp ∧ parseInputFromAbi E vm (some inp) abi = (p, vm1) ∧
        p.err = none ∧ p.funcName = funcName ∧ p.params = params ∧
        p.returnType = returnType)
    (h5 : E.GetFunctionExport vm1 funcName = some entryID)
    (h6 : E.RunWithGasLimit vm1 entryID (int64 contract.Gas) params = out)
    (h7 : out.err = none) :
    ((Run E s contract input flag).1 = .ret [] (some "out of gas.") ↔
        contract.Gas ≤ s.vmContext.GasUsed) ∧
      (contract.Gas ≤ s.vmContext.GasUsed →
        (Run E s contract input flag).2.contract.Gas = contract.Gas) ∧
      (s.vmContext.GasUsed < contract.Gas →
        (Run E s contract input flag).2.contract.Gas =
          contract.Gas - s.vmContext.GasUsed ∧
        (Run E s contract input flag).1 =
          (match input with
            | none => Outcome.ret contract.Code none
            | some _ => encodeReturn returnType out.res (E.Memory out.vm)) ∧
        (¬ (input ≠ none ∧ returnType = "string" ∧
            ¬ (0 ≤ out.res ∧ out.res ≤ ((E.Memory out.vm).length : Int))) →
          ∃ bytes, (Run E s contract input flag).1 = .ret bytes none)) := by
  have key : (Run E s contract input flag).1 =
        (if contract.Gas > s.vmContext.GasUsed then
          (match input with
            | none => Outcome.ret contract.Code none
            | some _ => encodeReturn returnType out.res (E.Memory out.vm))
          else .ret [] (some "out of gas.")) ∧
      (Run E s contract input flag).2.contract.Gas =
        (if contract.Gas > s.vmContext.GasUsed then contract.Gas - s.vmContext.GasUsed
          else contract.Gas) := by
    rcases h3 with ⟨hi, hv, hf, hp⟩ | ⟨inp, p, hi, hparse, hperr, hf, hp, hr⟩
    · subst hi hv hf hp
      have h := Run_deploy E s contract flag t abi code vm1 entryID h0 h1 h2 h5
        (by rw [h6]; exact h7)
      exact ⟨h.1, h.2.1⟩
    · subst hi hf hp hr
      have h := Run_call E s contract inp flag t abi code vm vm1 p entryID h0 h1 h2 hparse
        hperr h5 (by rw [h6]; exact h7)
      rw [h6] at h
      exact h
  obtain ⟨k1, k2⟩ := key
  by_cases hg : contract.Gas > s.vmContext.GasUsed
  · rw [if_pos hg] at k1 k2
    have hne : (Run E s contract input flag).1 ≠ .ret [] (some "out of gas.") := by
      rw [k1]
      cases input with
      | none => simp
      | some inp => exact encodeReturn_no_err _ _ _ _ _
    refine ⟨⟨fun h => absurd h hne, fun h => absurd hg (by omega)⟩,
      fun h => absurd hg (by omega), fun _ => ⟨k2, k1, fun hok => ?_⟩⟩
    rw [k1]
    cases input with
    | none => exact ⟨_, rfl⟩
    | some inp =>
      exact encodeReturn_ok _ _ _ (fun hbad => hok ⟨by simp, hbad.1, hbad.2⟩)
  · rw [if_neg hg] at k1 k2
    exact ⟨⟨fun _ => by omega, fun _ => k1⟩, fun _ => k2, fun h => absurd h (by omega)⟩

/-- The sample contract's `set` entry is called with a budget of 10 on an
interpreter whose counter is 0. -/
theorem Run_gas_check_witness :
    ((Run (sampleVM 5 3 []) idle (sampleContract 10)
        (some [0xc8, 0x01, 0x83, 0x73, 0x65, 0x74, 0x82, 0xff, 0xff]) false).1 =
        .ret [] (some "out of gas.") ↔ (sampleContract 10).Gas ≤ idle.vmContext.GasUsed) ∧
      ((sampleContract 10).Gas ≤ idle.vmContext.GasUsed →
        (Run (sampleVM 5 3 []) idle (sampleContract 10)
          (some [0xc8, 0x01, 0x83, 0x73, 0x65, 0x74, 0x82, 0xff, 0xff]) false).2.contract.Gas =
            (sampleContract 10).Gas) ∧
      (idle.vmContext.GasUsed < (sampleContract 10).Gas →
        (Run (sampleVM 5 3 []) idle (sampleContract 10)
          (some [0xc8, 0x01, 0x83, 0x73, 0x65, 0x74, 0x82, 0xff, 0xff]) false).2.contract.Gas =
            (sampleContract 10).Gas - idle.vmContext.GasUsed ∧
        (Run (sampleVM 5 3 []) idle (sampleContract 10)
          (some [0xc8, 0x01, 0x83, 0x73, 0x65, 0x74, 0x82, 0xff, 0xff]) false).1 =
            encodeReturn "void" 5 [] ∧
        (¬ ((some [0xc8, 0x01, 0x83, 0x73, 0x65, 0x74, 0x82, 0xff, 0xff] : Option Bytes) ≠
              none ∧ "void" = "string" ∧
            ¬ ((0 : Int) ≤ 5 ∧ (5 : Int) ≤ (([] : Bytes).length : Int))) →
          ∃ bytes, (Run (sampleVM 5 3 []) idle (sampleContract 10)
            (some [0xc8, 0x01, 0x83, 0x73, 0x65, 0x74, 0x82, 0xff, 0xff]) false).1 =
              .ret bytes none)) :=
  Run_gas_check (sampleVM 5 3 []) idle (sampleContract 10)
    (some [0xc8, 0x01, 0x83, 0x73, 0x65, 0x74, 0x82, 0xff, 0xff]) false 1 sampleAbiJson
    sampleBytecode
    { memory := [], exports := ["init", "set", "name", "half", "add"] }
    { memory := [], exports := ["init", "set", "name", "half", "add"] }
    "set" [65535] "void" 1
    { res := 5, err := none,
      vm := { memory := [], exports := ["init", "set", "name", "half", "add"] },
      GasUsed := 3 }
    (by decide) (by decide) (by rfl)
    (Or.inr ⟨[0xc8, 0x01, 0x83, 0x73, 0x65, 0x74, 0x82, 0xff, 0xff],
      { txType := 1, funcName := "set", params := [65535], returnType := "void", err := none },
      rfl, by decide, by decide, by decide, by decide, by decide⟩)
    (by decide) (by rfl) (by decide)

/-- C4 as stated fails at `gasUsed = contractGas`: the interpreter's counter
`in.vmContext.GasUsed` is 0, the sample contract is called with a budget of 0,
the machine runs the `set` entry without error, and `Run` fails with
"out of gas." although `gasUsed > contractGas` is false; the budget stays 0. -/
theorem Run_out_of_gas_at_equality :
    idle.vmContext.GasUsed = 0 ∧ (sampleContract 0).Gas = 0 ∧
      ((sampleVM 5 0 []).RunWithGasLimit
        { memory := [], exports := ["init", "set", "name", "half", "add"] } 1 0 [65535]).err =
        none ∧
      (Run (sampleVM 5 0 []) idle (sampleContract 0)
        (some [0xc8, 0x01, 0x83, 0x73, 0x65, 0x74, 0x82, 0xff, 0xff]) false).1 =
        .ret [] (some "out of gas.") ∧
      (Run (sampleVM 5 0 []) idle (sampleContract 0)
        (some [0xc8, 0x01, 0x83, 0x73, 0x65, 0x74, 0x82, 0xff, 0xff]) false).2.contract.Gas =
        0 ∧
      ¬ (idle.vmContext.GasUsed > (sampleContract 0).Gas) := by
  refine ⟨by decide, by decide, by decide, by decide, by decide, by decide⟩

theorem parseRlpData_bundle {V : Type} (E : Engine V) (rlpData tx bytecode abiJson : Bytes)
    (h : E.rlpDecode rlpData =
      .ok (.list [RlpItem.str tx, RlpItem.str bytecode, RlpItem.str abiJson])) :
    parseRlpData E rlpData = (E.BytesToInt64 tx, abiJson, bytecode, none) := by
  simp [parseRlpData, h, bytesAt]

/-- C5, as the code has it: when the contract code decodes to a bundle
`[txType, bytecode, abiJson]`, the input is absent (nil) and the machine runs the
"init" entry without error and within gas, the result of `Run` is the contract
code as stored (the whole encoded bundle, which is what later calls decode
again), and the calls made are exactly `parseRlpData`, `NewVirtualMachine`,
`GetFunctionExport` and `RunWithGasLimit`: `parseInputFromAbi` is not invoked. -/
theorem Run_deployment {V : Type} (E : Engine V) (s : WASMInterpreter V)
    (contract : Contract) (flag : Bool) (tx bytecode abiJson : Bytes) (vm : V)
    (entryID : Int) (out : RunOutput V)
    (h0 : contract.Code.length ≠ 0)
    (h1 : E.rlpDecode contract.Code =
      .ok (.list [RlpItem.str tx, RlpItem.str bytecode, RlpItem.str abiJson]))
    (h2 : E.NewVirtualMachine bytecode
      { s.vmContext with Addr := contract.address, GasLimit := contract.Gas } = .ok vm)
    (h5 : E.GetFunctionExport vm "init" = some entryID)
    (h6 : E.RunWithGasLimit vm entryID (int64 contract.Gas) [] = out)
    (h7 : out.err = none)
    (h8 : s.vmContext.GasUsed < contract.Gas) :
    (Run E s contract none flag).1 = .ret contract.Code none ∧
      (Run E s contract none flag).2.trace =
        s.trace ++ [Event.parseRlpData, Event.NewVirtualMachine, Event.GetFunctionExport,
          Event.RunWithGasLimit] ∧
      Event.parseInputFromAbi ∉ [Event.parseRlpData, Event.NewVirtualMachine,
        Event.GetFunctionExport, Event.RunWithGasLimit] := by
  have h := Run_deploy E s contract flag _ _ _ vm entryID h0
    (parseRlpData_bundle E _ _ _ _ h1) h2 h5 (by rw [h6]; exact h7)
  rw [if_pos h8] at h
  exact ⟨h.1, h.2.2, by decide⟩

/-- The sample contract is deployed with a budget of 10 on an interpreter whose
counter is 0. -/
theorem Run_deployment_witness :
    (Run (sampleVM 0 3 []) idle (sampleContract 10) none false).1 = .ret sampleCode none ∧
      (Run (sampleVM 0 3 []) idle (sampleContract 10) none false).2.trace =
        [] ++ [Event.parseRlpData, Event.NewVirtualMachine, Event.GetFunctionExport,
          Event.RunWithGasLimit] ∧
      Event.parseInputFromAbi ∉ [Event.parseRlpData, Event.NewVirtualMachine,
        Event.GetFunctionExport, Event.RunWithGasLimit] :=
  Run_deployment (sampleVM 0 3 []) idle (sampleContract 10) false [1] sampleBytecode
    sampleAbiJson { memory := [], exports := ["init", "set", "name", "half", "add"] } 0
    { res := 0, err := none,
      vm := { memory := [], exports := ["init", "set", "name", "half", "add"] },
      GasUsed := 3 }
    (by decide) (by rfl) (by rfl) (by decide) (by rfl) (by decide) (by decide)

/-- C5 as stated fails: the sample contract code decodes to the bundle
`[1, sampleBytecode, sampleAbiJson]` with non-empty bytecode, the deployment call
runs within gas, and the result of `Run` is the 297-byte contract code, not the
4-byte bytecode element. -/
theorem deployment_returns_whole_bundle :
    rlpDecode sampleCode =
        .ok (.list [RlpItem.str [1], RlpItem.str sampleBytecode, RlpItem.str sampleAbiJson]) ∧
      sampleBytecode ≠ [] ∧
      (Run (sampleVM 0 3 []) idle (sampleContract 10) none false).1 = .ret sampleCode none ∧
      (Run (sampleVM 0 3 []) idle (sampleContract 10) none false).1 ≠
        .ret sampleBytecode none ∧
      sampleCode.length = 297 ∧ sampleBytecode.length = 4 := by
  refine ⟨by rfl, by decide, by decide, by decide, by decide, by decide⟩

/-! ## Claims on the call input decoder -/

theorem lookupMethod_none {V : Type} (E : Engine V) (funcName : String)
    (methods : List AbiMethod)
    (h : ∀ m ∈ methods, E.EqualFold funcName m.Method = false) :
    lookupMethod E funcName methods = ([], "") := by
  induction methods with
  | nil => rfl
  | cons v rest ih =>
    simp only [lookupMethod, h v (List.mem_cons_self _ _)]
    exact ih (fun m hm => h m (List.mem_cons_of_mem _ hm))

theorem lookupMethod_first {V : Type} (E : Engine V) (funcName : String)
    (before after : List AbiMethod) (m : AbiMethod)
    (h1 : ∀ x ∈ before, E.EqualFold funcName x.Method = false)
    (h2 : E.EqualFold funcName m.Method = true) :
    lookupMethod E funcName (before ++ m :: after) = (m.Args, m.Return) := by
  induction before with
  | nil => simp [lookupMethod, h2]
  | cons v rest ih =>
    have e : (v :: rest) ++ m :: after = v :: (rest ++ m :: after) := rfl
    rw [e]
    simp only [lookupMethod, h1 v (List.mem_cons_self _ _)]
    exact ih (fun x hx => h1 x (List.mem_cons_of_mem _ hx))

theorem parseInputFromAbi_decoded {V : Type} (E : Engine V) (vm : V) (inp abi : Bytes)
    (e0 : RlpItem) (f : Bytes) (rest : List RlpItem) (methods : List AbiMethod)
    (hlen : 1 < inp.length)
    (hdec : E.rlpDecode inp = .ok (.list (e0 :: RlpItem.str f :: rest)))
    (hjson : E.FromJson abi = .ok methods) :
    parseInputFromAbi E vm (some inp) abi =
      if (lookupMethod E (goString f) methods).1.length ≠ rest.length then
        ({ txType := -1, funcName := "", params := [],
           returnType := (lookupMethod E (goString f) methods).2,
           err := some "invalid input or invalid abi." }, vm)
      else
        match convertArgs E (lookupMethod E (goString f) methods).1 rest vm [] with
        | (.error e, vm1) => (parseFail e, vm1)
        | (.ok params, vm1) =>
          ({ txType := (match bytesAt (e0 :: RlpItem.str f :: rest) 0 with
                          | some v => E.bytes2int64 v
                          | none => 0),
             funcName := goString f, params := params,
             returnType := (lookupMethod E (goString f) methods).2, err := none }, vm1) := by
  have h1 : ¬ inp.length ≤ 1 := by omega
  simp only [parseInputFromAbi, h1, if_false, hdec, hjson, List.length_cons, bytesAt]
  simp

/-- What the length comparison at line 234 does with a name that no method folds
to: the lookup leaves the expected argument list empty, so a call input with at
least one raw argument is rejected, and one with no raw argument passes, with
`funcName`, an empty argument list and an empty return type. -/
theorem parseInputFromAbi_unknown_method {V : Type} (E : Engine V) (vm : V)
    (inp abi tx f : Bytes) (rest : List RlpItem) (methods : List AbiMethod)
    (hlen : 1 < inp.length)
    (hdec : E.rlpDecode inp = .ok (.list (RlpItem.str tx :: RlpItem.str f :: rest)))
    (hjson : E.FromJson abi = .ok methods)
    (hno : ∀ m ∈ methods, E.EqualFold (goString f) m.Method = false) :
    ((parseInputFromAbi E vm (some inp) abi).1.err ≠ none ↔ rest ≠ []) ∧
      (rest ≠ [] →
        (parseInputFromAbi E vm (some inp) abi).1.err = some "invalid input or invalid abi.") ∧
      (rest = [] →
        (parseInputFromAbi E vm (some inp) abi).1 =
          { txType := E.bytes2int64 tx, funcName := goString f, params := [],
            returnType := "", err := none }) := by
  rw [parseInputFromAbi_decoded E vm inp abi _ f rest methods hlen hdec hjson,
    lookupMethod_none E _ methods hno]
  cases rest with
  | nil => simp [convertArgs, bytesAt]
  | cons r rs => simp

/-- The sample ABI has no method `foo`; the call passes one argument. -/
theorem parseInputFromAbi_unknown_method_witness :
    ((parseInputFromAbi (sampleVM 0 0 []) { memory := [], exports := [] }
        (some [0xc7, 0x01, 0x83, 0x66, 0x6f, 0x6f, 0x81, 0xff]) sampleAbiJson).1.err ≠ none ↔
        [RlpItem.str [0xff]] ≠ []) ∧
      ([RlpItem.str [0xff]] ≠ [] →
        (parseInputFromAbi (sampleVM 0 0 []) { memory := [], exports := [] }
          (some [0xc7, 0x01, 0x83, 0x66, 0x6f, 0x6f, 0x81, 0xff]) sampleAbiJson).1.err =
          some "invalid input or invalid abi.") ∧
      ([RlpItem.str [0xff]] = [] →
        (parseInputFromAbi (sampleVM 0 0 []) { memory := [], exports := [] }
          (some [0xc7, 0x01, 0x83, 0x66, 0x6f, 0x6f, 0x81, 0xff]) sampleAbiJson).1 =
          { txType := (sampleVM 0 0 []).bytes2int64 [1], funcName := goString [0x66, 0x6f, 0x6f],
            params := [], returnType := "", err := none }) :=
  parseInputFromAbi_unknown_method (sampleVM 0 0 []) { memory := [], exports := [] }
    [0xc7, 0x01, 0x83, 0x66, 0x6f, 0x6f, 0x81, 0xff] sampleAbiJson [1] [0x66, 0x6f, 0x6f]
    [RlpItem.str [0xff]] sampleAbi (by decide) (by rfl) (by rfl) (by decide)

/-- C6 fails on the code when the input has no raw argument: the call input
`[1, "foo"]` is well formed, no method of the sample ABI is named `foo`, and
`parseInputFromAbi` returns no error, where the same name with one raw argument
is rejected. With the call input `[1, "init"]`, a name that the ABI does not list
either but the module exports, `Run` goes on to run that entry. -/
theorem unknown_method_without_arguments_accepted :
    rlpDecode [0xc5, 0x01, 0x83, 0x66, 0x6f, 0x6f] =
        .ok (.list [RlpItem.str [1], RlpItem.str [0x66, 0x6f, 0x6f]]) ∧
      goString [0x66, 0x6f, 0x6f] = "foo" ∧
      (sampleVM 0 0 []).FromJson sampleAbiJson = .ok sampleAbi ∧
      (∀ m ∈ sampleAbi, (sampleVM 0 0 []).EqualFold "foo" m.Method = false) ∧
      (parseInputFromAbi (sampleVM 0 0 []) { memory := [], exports := [] }
        (some [0xc5, 0x01, 0x83, 0x66, 0x6f, 0x6f]) sampleAbiJson).1 =
        { txType := 1, funcName := "foo", params := [], returnType := "", err := none } ∧
      (parseInputFromAbi (sampleVM 0 0 []) { memory := [], exports := [] }
        (some [0xc7, 0x01, 0x83, 0x66, 0x6f, 0x6f, 0x81, 0xff]) sampleAbiJson).1 =
        { txType := -1, funcName := "", params := [], returnType := "",
          err := some "invalid input or invalid abi." } ∧
      (∀ m ∈ sampleAbi, (sampleVM 0 0 []).EqualFold "init" m.Method = false) ∧
      (Run (sampleVM 0 0 []) idle (sampleContract 10)
        (some [0xc6, 0x01, 0x84, 0x69, 0x6e, 0x69, 0x74]) false).1 = .ret [] none ∧
      (Run (sampleVM 0 0 []) idle (sampleContract 10)
        (some [0xc6, 0x01, 0x84, 0x69, 0x6e, 0x69, 0x74]) false).2.trace =
        [Event.parseRlpData, Event.NewVirtualMachine, Event.parseInputFromAbi,
          Event.GetFunctionExport, Event.RunWithGasLimit] := by
  refine ⟨by rfl, by decide, by rfl, by decide, by decide, by decide, by decide, by decide,
    by decide⟩

/-- C7: when the method that `funcName` resolves to (the first ABI entry whose
name folds to it) declares a number of arguments different from the number of
raw arguments of the call input, `parseInputFromAbi` returns an error and an
empty (nil) argument list, and leaves the machine as it was. -/
theorem parseInputFromAbi_count_mismatch {V : Type} (E : Engine V) (vm : V)
    (inp abi : Bytes) (e0 : RlpItem) (f : Bytes) (rest : List RlpItem)
    (before after : List AbiMethod) (m : AbiMethod)
    (hdec : E.rlpDecode inp = .ok (.list (e0 :: RlpItem.str f :: rest)))
    (hjson : E.FromJson abi = .ok (before ++ m :: after))
    (hbefore : ∀ x ∈ before, E.EqualFold (goString f) x.Method = false)
    (hm : E.EqualFold (goString f) m.Method = true)
    (hcount : rest.length ≠ m.Args.length) :
    (parseInputFromAbi E vm (some inp) abi).1.err ≠ none ∧
      (parseInputFromAbi E vm (some inp) abi).1.params = [] ∧
      (parseInputFromAbi E vm (some inp) abi).2 = vm := by
  by_cases hlen : 1 < inp.length
  · rw [parseInputFromAbi_decoded E vm inp abi e0 f rest _ hlen hdec hjson,
      lookupMethod_first E _ before after m hbefore hm, if_pos (fun h => hcount h.symm)]
    simp
  · have h1 : inp.length ≤ 1 := by omega
    simp [parseInputFromAbi, h1, parseFail]

/-- The sample contract's `set` takes one argument; the call passes two. -/
theorem parseInputFromAbi_count_mismatch_witness :
    (parseInputFromAbi (sampleVM 0 0 []) { memory := [], exports := [] }
        (some [0xcb, 0x01, 0x83, 0x73, 0x65, 0x74, 0x82, 0x00, 0x01, 0x82, 0x00, 0x02])
        sampleAbiJson).1.err ≠ none ∧
      (parseInputFromAbi (sampleVM 0 0 []) { memory := [], exports := [] }
        (some [0xcb, 0x01, 0x83, 0x73, 0x65, 0x74, 0x82, 0x00, 0x01, 0x82, 0x00, 0x02])
        sampleAbiJson).1.params = [] ∧
      (parseInputFromAbi (sampleVM 0 0 []) { memory := [], exports := [] }
        (some [0xcb, 0x01, 0x83, 0x73, 0x65, 0x74, 0x82, 0x00, 0x01, 0x82, 0x00, 0x02])
        sampleAbiJson).2 = { memory := [], exports := [] } :=
  parseInputFromAbi_count_mismatch (sampleVM 0 0 []) { memory := [], exports := [] }
    [0xcb, 0x01, 0x83, 0x73, 0x65, 0x74, 0x82, 0x00, 0x01, 0x82, 0x00, 0x02] sampleAbiJson
    (RlpItem.str [1]) [0x73, 0x65, 0x74] [RlpItem.str [0, 1], RlpItem.str [0, 2]]
    [] (sampleAbi.drop 1)
    { Method := "set", Args := [{ Name := "a", RealTypeName := "int16" }], Return := "void" }
    (by rfl) (by rfl) (by decide) (by decide) (by decide)

theorem int64_of_lt (u : Nat) (h : u < 2 ^ 63) : int64 u = (u : Int) := by
  unfold int64
  have h1 : u % 2 ^ 64 = u := Nat.mod_eq_of_lt (by omega)
  rw [h1, if_pos h]

theorem beNat_lt (b : Bytes) : beNat b < 256 ^ b.length := by
  induction b with
  | nil => simp [beNat]
  | cons x xs ih =>
    simp only [beNat, List.length_cons, pow_succ]
    have hx : x.val < 256 := x.isLt
    have : x.val * 256 ^ xs.length + 256 ^ xs.length ≤ 256 * 256 ^ xs.length := by
      have := Nat.mul_le_mul_right (256 ^ xs.length) (Nat.succ_le_of_lt hx)
      rw [Nat.succ_mul] at this
      omega
    omega

theorem beNat_take_lt (b : Bytes) (k : Nat) : beNat (b.take k) < 256 ^ k := by
  have h1 := beNat_lt (b.take k)
  have h2 : (b.take k).length ≤ k := by simp
  exact lt_of_lt_of_le h1 (Nat.pow_le_pow_right (by norm_num) h2)

theorem convertArg_string {V : Type} (E : Engine V) (vm : V) (v : Args) (b : Bytes)
    (params : List Int) (h : v.RealTypeName = "string") :
    convertArg E vm v (.str b) params =
      (.ok (params ++ [(E.MallocString vm (goString b)).1]),
        (E.MallocString vm (goString b)).2) := by
  simp [convertArg, h]

theorem convertArg_byte {V : Type} (E : Engine V) (vm : V) (v : Args) (x : Byte) (xs : Bytes)
    (params : List Int) (h : v.RealTypeName ∈ ["int8", "uint8", "bool"]) :
    convertArg E vm v (.str (x :: xs)) params = (.ok (params ++ [int64 x.val]), vm) := by
  simp only [List.mem_cons, List.mem_singleton, List.not_mem_nil, or_false] at h
  rcases h with h | h | h <;> simp [convertArg, h]

theorem convertArg_16 {V : Type} (E : Engine V) (vm : V) (v : Args) (b : Bytes)
    (params : List Int) (h : v.RealTypeName = "int16") (hb : 2 ≤ b.length) :
    convertArg E vm v (.str b) params = (.ok (params ++ [int64 (beNat (b.take 2))]), vm) := by
  simp [convertArg, h, Uint16, hb]

theorem convertArg_32 {V : Type} (E : Engine V) (vm : V) (v : Args) (b : Bytes)
    (params : List Int) (h : v.RealTypeName ∈ ["int32", "int", "uint32", "uint"])
    (hb : 4 ≤ b.length) :
    convertArg E vm v (.str b) params = (.ok (params ++ [int64 (beNat (b.take 4))]), vm) := by
  simp only [List.mem_cons, List.mem_singleton, List.not_mem_nil, or_false] at h
  rcases h with h | h | h | h <;> simp [convertArg, h, Uint32, hb]

theorem convertArg_64 {V : Type} (E : Engine V) (vm : V) (v : Args) (b : Bytes)
    (params : List Int) (h : v.RealTypeName ∈ ["int64", "uint64"]) (hb : 8 ≤ b.length) :
    convertArg E vm v (.str b) params = (.ok (params ++ [int64 (beNat (b.take 8))]), vm) := by
  simp only [List.mem_cons, List.mem_singleton, List.not_mem_nil, or_false] at h
  rcases h with h | h <;> simp [convertArg, h, Uint64, hb]

theorem convertArg_recognised {V : Type} (E : Engine V) (vm : V) (v : Args) (b : Bytes)
    (h1 : v.RealTypeName ∈ recognised) (h2 : needed v.RealTypeName ≤ b.length) :
    ∃ w vm2, ∀ params, convertArg E vm v (.str b) params = (.ok (params ++ [w]), vm2) := by
  simp only [recognised, List.mem_cons, List.mem_singleton, List.not_mem_nil, or_false] at h1
  have byteCase : v.RealTypeName ∈ ["int8", "uint8", "bool"] → 1 ≤ b.length →
      ∃ w vm2, ∀ params, convertArg E vm v (.str b) params = (.ok (params ++ [w]), vm2) := by
    intro h hb
    cases b with
    | nil => simp at hb
    | cons x xs => exact ⟨int64 x.val, vm, fun params => convertArg_byte E vm v x xs params h⟩
  have c32 : v.RealTypeName ∈ ["int32", "int", "uint32", "uint"] → 4 ≤ b.length →
      ∃ w vm2, ∀ params, convertArg E vm v (.str b) params = (.ok (params ++ [w]), vm2) :=
    fun h hb => ⟨_, vm, fun params => convertArg_32 E vm v b params h hb⟩
  have c64 : v.RealTypeName ∈ ["int64", "uint64"] → 8 ≤ b.length →
      ∃ w vm2, ∀ params, convertArg E vm v (.str b) params = (.ok (params ++ [w]), vm2) :=
    fun h hb => ⟨_, vm, fun params => convertArg_64 E vm v b params h hb⟩
  rcases h1 with h | h | h | h | h | h | h | h | h | h | h
  · exact ⟨_, _, fun params => convertArg_string E vm v b params h⟩
  · exact byteCase (by simp [h]) (by rw [h] at h2; exact h2)
  · exact ⟨_, vm, fun params => convertArg_16 E vm v b params h (by rw [h] at h2; exact h2)⟩
  · exact c32 (by simp [h]) (by rw [h] at h2; exact h2)
  · exact c32 (by simp [h]) (by rw [h] at h2; exact h2)
  · exact c64 (by simp [h]) (by rw [h] at h2; exact h2)
  · exact byteCase (by simp [h]) (by rw [h] at h2; exact h2)
  · exact c32 (by simp [h]) (by rw [h] at h2; exact h2)
  · exact c32 (by simp [h]) (by rw [h] at h2; exact h2)
  · exact c64 (by simp [h]) (by rw [h] at h2; exact h2)
  · exact byteCase (by simp [h]) (by rw [h] at h2; exact h2)

theorem convertArgs_recognised {V : Type} (E : Engine V) (args : List Args)
    (raws : List Bytes)
    (h : List.Forall₂ (fun a b => a.RealTypeName ∈ recognised ∧ needed a.RealTypeName ≤ b.length)
      args raws) :
    ∀ (vm : V) (params : List Int), ∃ ws vm2,
      convertArgs E args (raws.map RlpItem.str) vm params = (.ok (params ++ ws), vm2) ∧
      List.Forall₂ (fun ab w => ∃ vmi, (convertArg E vmi ab.1 (.str ab.2) []).1 = .ok [w])
        (args.zip raws) ws := by
  induction h with
  | nil =>
    intro vm params
    exact ⟨[], vm, by simp [convertArgs], List.Forall₂.nil⟩
  | @cons a b as bs hab _ ih =>
    intro vm params
    obtain ⟨w, vm2, hw⟩ := convertArg_recognised E vm a b hab.1 hab.2
    obtain ⟨ws, vm3, hws, hall⟩ := ih vm2 (params ++ [w])
    refine ⟨w :: ws, vm3, ?_, ?_⟩
    · simp only [List.map_cons, convertArgs, hw, hws, List.append_assoc, List.singleton_append]
    · exact List.Forall₂.cons ⟨vm, by rw [hw]; rfl⟩ hall

/-- C8: when `funcName` resolves to the ABI method `m` (the first entry whose name
folds to it), every declared argument of `m` has a type in the enumerated set,
and the call input carries one byte-string per declared argument, each at least
as long as its type reads, `parseInputFromAbi` succeeds: it returns the function
name, exactly `len(m.args)` argument words, the word at each position being the
one the loop round produces for the declared argument and the raw argument at
that position, and the declared return type of `m`. -/
theorem parseInputFromAbi_valid {V : Type} (E : Engine V) (vm : V)
    (inp abi tx f : Bytes) (raws : List Bytes) (before after : List AbiMethod) (m : AbiMethod)
    (hlen : 1 < inp.length)
    (hdec : E.rlpDecode inp =
      .ok (.list (RlpItem.str tx :: RlpItem.str f :: raws.map RlpItem.str)))
    (hjson : E.FromJson abi = .ok (before ++ m :: after))
    (hbefore : ∀ x ∈ before, E.EqualFold (goString f) x.Method = false)
    (hm : E.EqualFold (goString f) m.Method = true)
    (hargs : List.Forall₂
      (fun a b => a.RealTypeName ∈ recognised ∧ needed a.RealTypeName ≤ b.length) m.Args raws) :
    (parseInputFromAbi E vm (some inp) abi).1.err = none ∧
      (parseInputFromAbi E vm (some inp) abi).1.funcName = goString f ∧
      (parseInputFromAbi E vm (some inp) abi).1.params.length = m.Args.length ∧
      (parseInputFromAbi E vm (some inp) abi).1.returnType = m.Return ∧
      List.Forall₂ (fun ab w => ∃ vmi, (convertArg E vmi ab.1 (.str ab.2) []).1 = .ok [w])
        (m.Args.zip raws) (parseInputFromAbi E vm (some inp) abi).1.params := by
  obtain ⟨ws, vm2, hws, hall⟩ := convertArgs_recognised E m.Args raws hargs vm []
  have hl : m.Args.length = raws.length := hargs.length_eq
  have hz : (m.Args.zip raws).length = ws.length := hall.length_eq
  rw [parseInputFromAbi_decoded E vm inp abi _ f _ _ hlen hdec hjson,
    lookupMethod_first E _ before after m hbefore hm]
  simp only [List.length_map, hl, ne_eq, not_true_eq_false, if_false, hws, List.nil_append]
  refine ⟨trivial, trivial, ?_, trivial, hall⟩
  rw [← hz, List.length_zip, hl, Nat.min_self]

/-- The sample contract's `add` is called with an eight-byte and a one-byte argument. -/
theorem parseInputFromAbi_valid_witness :
    (parseInputFromAbi (sampleVM 0 0 []) { memory := [], exports := [] }
        (some [0xd0, 0x01, 0x83, 0x61, 0x64, 0x64, 0x88, 0, 0, 0, 0, 0, 0, 0, 2, 0x81, 0x83])
        sampleAbiJson).1.err = none ∧
      (parseInputFromAbi (sampleVM 0 0 []) { memory := [], exports := [] }
        (some [0xd0, 0x01, 0x83, 0x61, 0x64, 0x64, 0x88, 0, 0, 0, 0, 0, 0, 0, 2, 0x81, 0x83])
        sampleAbiJson).1.funcName = goString [0x61, 0x64, 0x64] ∧
      (parseInputFromAbi (sampleVM 0 0 []) { memory := [], exports := [] }
        (some [0xd0, 0x01, 0x83, 0x61, 0x64, 0x64, 0x88, 0, 0, 0, 0, 0, 0, 0, 2, 0x81, 0x83])
        sampleAbiJson).1.params.length = 2 ∧
      (parseInputFromAbi (sampleVM 0 0 []) { memory := [], exports := [] }
        (some [0xd0, 0x01, 0x83, 0x61, 0x64, 0x64, 0x88, 0, 0, 0, 0, 0, 0, 0, 2, 0x81, 0x83])
        sampleAbiJson).1.returnType = "int64" ∧
      List.Forall₂
        (fun ab w => ∃ vmi, (convertArg (sampleVM 0 0 []) vmi ab.1 (.str ab.2) []).1 = .ok [w])
        ([({ Name := "x", RealTypeName := "int64" } : Args),
          { Name := "y", RealTypeName := "uint8" }].zip [[0, 0, 0, 0, 0, 0, 0, 2], [0x83]])
        (parseInputFromAbi (sampleVM 0 0 []) { memory := [], exports := [] }
          (some [0xd0, 0x01, 0x83, 0x61, 0x64, 0x64, 0x88, 0, 0, 0, 0, 0, 0, 0, 2, 0x81, 0x83])
          sampleAbiJson).1.params :=
  parseInputFromAbi_valid (sampleVM 0 0 []) { memory := [], exports := [] }
    [0xd0, 0x01, 0x83, 0x61, 0x64, 0x64, 0x88, 0, 0, 0, 0, 0, 0, 0, 2, 0x81, 0x83] sampleAbiJson
    [1] [0x61, 0x64, 0x64] [[0, 0, 0, 0, 0, 0, 0, 2], [0x83]] (sampleAbi.take 3) []
    { Method := "add",
      Args := [{ Name := "x", RealTypeName := "int64" }, { Name := "y", RealTypeName := "uint8" }],
      Return := "int64" }
    (by decide) (by rfl) (by rfl) (by decide) (by decide)
    (List.Forall₂.cons ⟨by decide, by decide⟩
      (List.Forall₂.cons ⟨by decide, by decide⟩ List.Forall₂.nil))

theorem int64_bounds (u : Nat) :
    int64 u % 2 ^ 64 = ((u % 2 ^ 64 : Nat) : Int) ∧ -2 ^ 63 ≤ int64 u ∧ int64 u < 2 ^ 63 := by
  unfold int64
  have h : u % 2 ^ 64 < 2 ^ 64 := Nat.mod_lt _ (by norm_num)
  generalize u % 2 ^ 64 = r at h
  norm_num at h ⊢
  split <;> omega

/-- C9, as the code has it: for an argument declared int16 whose raw byte-string
has at least two bytes `b0, b1`, the round of the loop appends the unsigned
(zero-extended) value `b0 * 256 + b1` of the big-endian 16-bit integer, a word in
`0..65535`; bytes after the first two do not influence it. -/
theorem convertArg_int16 {V : Type} (E : Engine V) (vm : V) (v : Args) (b0 b1 : Byte)
    (rest : Bytes) (params : List Int) (h : v.RealTypeName = "int16") :
    convertArg E vm v (.str (b0 :: b1 :: rest)) params =
        (.ok (params ++ [((b0.val * 256 + b1.val : Nat) : Int)]), vm) ∧
      (0 : Int) ≤ ((b0.val * 256 + b1.val : Nat) : Int) ∧
      ((b0.val * 256 + b1.val : Nat) : Int) ≤ 65535 := by
  have h0 := b0.isLt
  have h1 := b1.isLt
  have hw : beNat ((b0 :: b1 :: rest).take 2) = b0.val * 256 + b1.val := by
    simp [beNat]
  refine ⟨?_, by omega, by omega⟩
  rw [convertArg_16 E vm v _ params h (by simp), hw, int64_of_lt _ (by omega)]

/-- An argument declared int16 with raw bytes 01 02 03. -/
theorem convertArg_int16_witness :
    convertArg (sampleVM 0 0 []) { memory := [], exports := [] }
        { Name := "a", RealTypeName := "int16" } (.str (1 :: 2 :: [3])) [] =
        (.ok ([] ++ [(((1 : Byte).val * 256 + (2 : Byte).val : Nat) : Int)]),
          { memory := [], exports := [] }) ∧
      (0 : Int) ≤ (((1 : Byte).val * 256 + (2 : Byte).val : Nat) : Int) ∧
      (((1 : Byte).val * 256 + (2 : Byte).val : Nat) : Int) ≤ 65535 :=
  convertArg_int16 (sampleVM 0 0 []) { memory := [], exports := [] }
    { Name := "a", RealTypeName := "int16" } 1 2 [3] [] (by decide)

/-- C9 as stated fails on the bytes FF FF: the sample contract's `set` declares its
argument int16, the call passes FF FF, and the argument word is 65535, not -1. -/
theorem parseInputFromAbi_int16_unsigned :
    (parseInputFromAbi (sampleVM 0 0 []) { memory := [], exports := [] }
        (some [0xc8, 0x01, 0x83, 0x73, 0x65, 0x74, 0x82, 0xff, 0xff]) sampleAbiJson).1 =
        { txType := 1, funcName := "set", params := [65535], returnType := "void",
          err := none } ∧
      (convertArg (sampleVM 0 0 []) { memory := [], exports := [] }
        { Name := "a", RealTypeName := "int16" } (.str [0xff, 0xff]) []).1 = .ok [65535] ∧
      (65535 : Int) ≠ -1 := by
  refine ⟨by decide, by rfl, by decide⟩

/-- C10: for an argument whose raw byte-string is long enough, the round of the
loop appends: for int8, uint8 and bool the value of the first byte (in 0..255);
for int32, int, uint32 and uint the big-endian value of the first four bytes (in
`0..2^32-1`); for int64 and uint64 the `int64` word whose 64-bit pattern is the
big-endian value of the first eight bytes. The machine is not touched, and bytes
beyond the width of the type do not influence the word. -/
theorem convertArg_fixed_width {V : Type} (E : Engine V) (vm : V) (v : Args) (b : Bytes)
    (params : List Int) :
    (v.RealTypeName ∈ ["int8", "uint8", "bool"] → 1 ≤ b.length →
      ∃ x : Byte, b.head? = some x ∧
        convertArg E vm v (.str b) params = (.ok (params ++ [(x.val : Int)]), vm) ∧
        (0 : Int) ≤ (x.val : Int) ∧ (x.val : Int) ≤ 255 ∧
        ∀ extra, convertArg E vm v (.str (b.take 1 ++ extra)) params =
          convertArg E vm v (.str b) params) ∧
    (v.RealTypeName ∈ ["int32", "int", "uint32", "uint"] → 4 ≤ b.length →
      convertArg E vm v (.str b) params =
          (.ok (params ++ [(beNat (b.take 4) : Int)]), vm) ∧
        (0 : Int) ≤ (beNat (b.take 4) : Int) ∧ (beNat (b.take 4) : Int) ≤ 2 ^ 32 - 1 ∧
        ∀ extra, convertArg E vm v (.str (b.take 4 ++ extra)) params =
          convertArg E vm v (.str b) params) ∧
    (v.RealTypeName ∈ ["int64", "uint64"] → 8 ≤ b.length →
      ∃ w : Int, convertArg E vm v (.str b) params = (.ok (params ++ [w]), vm) ∧
        w % 2 ^ 64 = (beNat (b.take 8) : Int) ∧ -2 ^ 63 ≤ w ∧ w < 2 ^ 63 ∧
        ∀ extra, convertArg E vm v (.str (b.take 8 ++ extra)) params =
          convertArg E vm v (.str b) params) := by
  have htake : ∀ (k : Nat) (extra : Bytes), k ≤ b.length →
      (b.take k ++ extra).take k = b.take k ∧ k ≤ (b.take k ++ extra).length := by
    intro k extra hk
    have hl : (b.take k).length = k := by simp [hk]
    refine ⟨?_, by simp [hl]⟩
    conv_lhs => rw [← hl]
    simp [List.take_left']
  refine ⟨?_, ?_, ?_⟩
  · intro h hb
    cases b with
    | nil => simp at hb
    | cons x xs =>
      refine ⟨x, rfl, ?_, by omega, by have := x.isLt; omega, ?_⟩
      · rw [convertArg_byte E vm v x xs params h, int64_of_lt _ (by have := x.isLt; omega)]
      · intro extra
        rw [convertArg_byte E vm v x xs params h]
        exact convertArg_byte E vm v x _ params h
  · intro h hb
    have hlt := beNat_take_lt b 4
    refine ⟨?_, by omega, by norm_num at hlt ⊢; omega, ?_⟩
    · rw [convertArg_32 E vm v b params h hb, int64_of_lt _ (by norm_num at hlt ⊢; omega)]
    · intro extra
      obtain ⟨e1, e2⟩ := htake 4 extra hb
      rw [convertArg_32 E vm v b params h hb, convertArg_32 E vm v _ params h e2, e1]
  · intro h hb
    have hlt := beNat_take_lt b 8
    obtain ⟨k1, k2, k3⟩ := int64_bounds (beNat (b.take 8))
    refine ⟨int64 (beNat (b.take 8)), convertArg_64 E vm v b params h hb, ?_, k2, k3, ?_⟩
    · rw [k1, Nat.mod_eq_of_lt (by norm_num at hlt ⊢; omega)]
    · intro extra
      obtain ⟨e1, e2⟩ := htake 8 extra hb
      rw [convertArg_64 E vm v b params h hb, convertArg_64 E vm v _ params h e2, e1]

/-- Arguments declared uint8, uint and int64, each with one byte more than its
type reads. -/
theorem convertArg_fixed_width_witness :
    (∃ x : Byte, ([0x83, 7] : Bytes).head? = some x ∧
        convertArg (sampleVM 0 0 []) { memory := [], exports := [] }
          { Name := "y", RealTypeName := "uint8" } (.str [0x83, 7]) [] =
          (.ok ([] ++ [(x.val : Int)]), { memory := [], exports := [] }) ∧
        (0 : Int) ≤ (x.val : Int) ∧ (x.val : Int) ≤ 255 ∧
        ∀ extra, convertArg (sampleVM 0 0 []) { memory := [], exports := [] }
          { Name := "y", RealTypeName := "uint8" } (.str (([0x83, 7] : Bytes).take 1 ++ extra))
            [] =
          convertArg (sampleVM 0 0 []) { memory := [], exports := [] }
            { Name := "y", RealTypeName := "uint8" } (.str [0x83, 7]) []) ∧
      (convertArg (sampleVM 0 0 []) { memory := [], exports := [] }
          { Name := "n", RealTypeName := "uint" } (.str [0xff, 0, 0, 1, 7]) [] =
          (.ok ([] ++ [(beNat (([0xff, 0, 0, 1, 7] : Bytes).take 4) : Int)]),
            { memory := [], exports := [] }) ∧
        (0 : Int) ≤ (beNat (([0xff, 0, 0, 1, 7] : Bytes).take 4) : Int) ∧
        (beNat (([0xff, 0, 0, 1, 7] : Bytes).take 4) : Int) ≤ 2 ^ 32 - 1 ∧
        ∀ extra, convertArg (sampleVM 0 0 []) { memory := [], exports := [] }
          { Name := "n", RealTypeName := "uint" }
            (.str (([0xff, 0, 0, 1, 7] : Bytes).take 4 ++ extra)) [] =
          convertArg (sampleVM 0 0 []) { memory := [], exports := [] }
            { Name := "n", RealTypeName := "uint" } (.str [0xff, 0, 0, 1, 7]) []) ∧
      (∃ w : Int, convertArg (sampleVM 0 0 []) { memory := [], exports := [] }
          { Name := "x", RealTypeName := "int64" }
            (.str [0xff, 0xff, 0xff, 0xff, 0xff, 0xff, 0xff, 0xfe, 7]) [] =
          (.ok ([] ++ [w]), { memory := [], exports := [] }) ∧
        w % 2 ^ 64 =
          (beNat (([0xff, 0xff, 0xff, 0xff, 0xff, 0xff, 0xff, 0xfe, 7] : Bytes).take 8) : Int) ∧
        -2 ^ 63 ≤ w ∧ w < 2 ^ 63 ∧
        ∀ extra, convertArg (sampleVM 0 0 []) { memory := [], exports := [] }
          { Name := "x", RealTypeName := "int64" }
            (.str (([0xff, 0xff, 0xff, 0xff, 0xff, 0xff, 0xff, 0xfe, 7] : Bytes).take 8 ++ extra))
            [] =
          convertArg (sampleVM 0 0 []) { memory := [], exports := [] }
            { Name := "x", RealTypeName := "int64" }
            (.str [0xff, 0xff, 0xff, 0xff, 0xff, 0xff, 0xff, 0xfe, 7]) []) :=
  ⟨(convertArg_fixed_width (sampleVM 0 0 []) { memory := [], exports := [] }
      { Name := "y", RealTypeName := "uint8" } [0x83, 7] []).1 (by decide) (by decide),
    (convertArg_fixed_width (sampleVM 0 0 []) { memory := [], exports := [] }
      { Name := "n", RealTypeName := "uint" } [0xff, 0, 0, 1, 7] []).2.1 (by decide) (by decide),
    (convertArg_fixed_width (sampleVM 0 0 []) { memory := [], exports := [] }
      { Name := "x", RealTypeName := "int64" }
      [0xff, 0xff, 0xff, 0xff, 0xff, 0xff, 0xff, 0xfe, 7] []).2.2 (by decide) (by decide)⟩

/-! ## Claims on the bundle decoder -/

/-- C12: when the decoded top-level value of the input is a single byte-string, or
a list of fewer than three elements (none, one or two), `parseRlpData` returns an
error together with transaction type -1 and neither bytecode nor ABI. -/
theorem parseRlpData_bad_shape {V : Type} (E : Engine V) (rlpData : Bytes)
    (h : (∃ b, E.rlpDecode rlpData = .ok (.str b)) ∨
      (∃ items, E.rlpDecode rlpData = .ok (.list items) ∧ items.length < 3)) :
    ∃ err, parseRlpData E rlpData = (-1, [], [], some err) := by
  rcases h with ⟨b, hb⟩ | ⟨items, hi, hl⟩
  · exact ⟨"invalid rlp format.", by simp [parseRlpData, hb]⟩
  · have h2 : items.length ≤ 2 := by omega
    exact ⟨"invalid input. ele must greater than 2", by simp [parseRlpData, hi, h2]⟩

/-- A byte-string at top level, and a list of two elements. -/
theorem parseRlpData_bad_shape_witness :
    (∃ err, parseRlpData (sampleVM 0 0 []) [0x83, 0x61, 0x62, 0x63] = (-1, [], [], some err)) ∧
      (∃ err, parseRlpData (sampleVM 0 0 []) [0xc2, 0x01, 0x02] = (-1, [], [], some err)) :=
  ⟨parseRlpData_bad_shape (sampleVM 0 0 []) [0x83, 0x61, 0x62, 0x63]
      (Or.inl ⟨[0x61, 0x62, 0x63], by rfl⟩),
    parseRlpData_bad_shape (sampleVM 0 0 []) [0xc2, 0x01, 0x02]
      (Or.inr ⟨[RlpItem.str [1], RlpItem.str [2]], by rfl, by decide⟩)⟩

/-! ## Claims on the state around `Run` -/

theorem execute_depth {V : Type} (E : Engine V) (s : WASMInterpreter V) (vm : V)
    (input : Option Bytes) (funcName : String) (params : List Int) (returnType : String) :
    (execute E s vm input funcName params returnType).2.depth = s.depth := by
  unfold execute
  simp only
  split
  · rfl
  · split
    · rfl
    · split
      · split <;> rfl
      · rfl

theorem runBody_depth {V : Type} (E : Engine V) (s : WASMInterpreter V)
    (input : Option Bytes) : (runBody E s input).2.depth = s.depth := by
  unfold runBody
  simp only
  split
  · rfl
  · split
    · rfl
    · split
      · rfl
      · split
        · rw [execute_depth]
        · split
          · rfl
          · rw [execute_depth]

theorem Run_depth {V : Type} (E : Engine V) (s : WASMInterpreter V) (contract : Contract)
    (input : Option Bytes) (flag : Bool) : (Run E s contract input flag).2.depth = s.depth := by
  simp only [Run, runBody_depth]
  omega

/-- C13: for every engine, interpreter state, contract, input and flag, whatever
path `Run` leaves by (a normal return with or without error, or a panic), the
call depth after `Run` equals the depth before it; hence after any sequence of
calls the depth equals its initial value. -/
theorem Run_depth_restored {V : Type} (E : Engine V) (s : WASMInterpreter V) :
    (∀ (contract : Contract) (input : Option Bytes) (flag : Bool),
      (Run E s contract input flag).2.depth = s.depth) ∧
    (∀ calls : List (Contract × Option Bytes × Bool),
      (runSequence E s calls).depth = s.depth) := by
  refine ⟨fun contract input flag => Run_depth E s contract input flag, ?_⟩
  intro calls
  induction calls generalizing s with
  | nil => rfl
  | cons c rest ih => rw [runSequence, ih, Run_depth]

/-- C17: on empty contract code, for every input, gas budget and interpreter
state, `Run` returns an empty result and no error, and the state after the call
is the state before it with the contract installed: no call is recorded (nothing
is decoded, no machine is instantiated) and the gas budget is unchanged. -/
theorem Run_empty_code {V : Type} (E : Engine V) (s : WASMInterpreter V)
    (contract : Contract) (input : Option Bytes) (flag : Bool)
    (h : contract.Code.length = 0) :
    (Run E s contract input flag).1 = .ret [] none ∧
      (Run E s contract input flag).2.trace = s.trace ∧
      (Run E s contract input flag).2.lvm = s.lvm ∧
      (Run E s contract input flag).2.vmContext = s.vmContext ∧
      (Run E s contract input flag).2.contract = contract ∧
      (Run E s contract input flag).2.depth = s.depth := by
  simp [Run, runBody, h]

/-- A contract without code is called with an input and 10 gas. -/
theorem Run_empty_code_witness :
    (Run (sampleVM 0 3 []) idle { Code := [], Gas := 10, Input := none, address := [] }
        (some [0xc5, 0x01, 0x83, 0x66, 0x6f, 0x6f]) false).1 = .ret [] none ∧
      (Run (sampleVM 0 3 []) idle { Code := [], Gas := 10, Input := none, address := [] }
        (some [0xc5, 0x01, 0x83, 0x66, 0x6f, 0x6f]) false).2.trace = idle.trace ∧
      (Run (sampleVM 0 3 []) idle { Code := [], Gas := 10, Input := none, address := [] }
        (some [0xc5, 0x01, 0x83, 0x66, 0x6f, 0x6f]) false).2.lvm = idle.lvm ∧
      (Run (sampleVM 0 3 []) idle { Code := [], Gas := 10, Input := none, address := [] }
        (some [0xc5, 0x01, 0x83, 0x66, 0x6f, 0x6f]) false).2.vmContext = idle.vmContext ∧
      (Run (sampleVM 0 3 []) idle { Code := [], Gas := 10, Input := none, address := [] }
        (some [0xc5, 0x01, 0x83, 0x66, 0x6f, 0x6f]) false).2.contract =
        { Code := [], Gas := 10, Input := none, address := [] } ∧
      (Run (sampleVM 0 3 []) idle { Code := [], Gas := 10, Input := none, address := [] }
        (some [0xc5, 0x01, 0x83, 0x66, 0x6f, 0x6f]) false).2.depth = idle.depth :=
  Run_empty_code (sampleVM 0 3 []) idle { Code := [], Gas := 10, Input := none, address := [] }
    (some [0xc5, 0x01, 0x83, 0x66, 0x6f, 0x6f]) false (by decide)

/-! ## Claims on the exits of `Run` -/

/-- C20: on a non-deployment call that executes within gas and whose declared
return type is none of "void", "int8", "int", "int32", "int64", "string", `Run`
returns an empty result and no error, and the deduction of line 130 is made all
the same: the caller's budget becomes its value at entry less
`in.vmContext.GasUsed`, the interpreter's own counter. -/
theorem Run_unhandled_return_type {V : Type} (E : Engine V) (s : WASMInterpreter V)
    (contract : Contract) (inp : Bytes) (flag : Bool) (t : Int) (abi code : Bytes)
    (vm vm1 : V) (p : ParsedInput) (entryID : Int) (out : RunOutput V)
    (h0 : contract.Code.length ≠ 0)
    (h1 : parseRlpData E contract.Code = (t, abi, code, none))
    (h2 : E.NewVirtualMachine code
      { s.vmContext with Addr := contract.address, GasLimit := contract.Gas } = .ok vm)
    (h3 : parseInputFromAbi E vm (some inp) abi = (p, vm1))
    (h4 : p.err = none)
    (h5 : E.GetFunctionExport vm1 p.funcName = some entryID)
    (h6 : E.RunWithGasLimit vm1 entryID (int64 contract.Gas) p.params = out)
    (h7 : out.err = none)
    (h8 : s.vmContext.GasUsed < contract.Gas)
    (hrt : p.returnType ∉ ["void", "int8", "int", "int32", "int64", "string"]) :
    (Run E s contract (some inp) flag).1 = .ret [] none ∧
      (Run E s contract (some inp) flag).2.contract.Gas =
        contract.Gas - s.vmContext.GasUsed := by
  have hrun := Run_call E s contract inp flag t abi code vm vm1 p entryID h0 h1 h2 h3 h4 h5
    (by rw [h6]; exact h7)
  rw [h6, if_pos h8, if_pos h8] at hrun
  simp only [List.mem_cons, List.mem_singleton, List.not_mem_nil, or_false, not_or] at hrt
  refine ⟨?_, hrun.2⟩
  rw [hrun.1, encodeReturn, if_neg (by tauto), if_neg (by tauto)]

/-- The sample contract's `half` entry is declared to return "int16"; it is called
with a budget of 10, on an interpreter whose counter is 0 and on one whose
counter is 3. -/
theorem Run_unhandled_return_type_witness :
    ((Run (sampleVM 9 3 []) idle (sampleContract 10)
        (some [0xc6, 0x01, 0x84, 0x68, 0x61, 0x6c, 0x66]) false).1 = .ret [] none ∧
      (Run (sampleVM 9 3 []) idle (sampleContract 10)
        (some [0xc6, 0x01, 0x84, 0x68, 0x61, 0x6c, 0x66]) false).2.contract.Gas =
        (sampleContract 10).Gas - idle.vmContext.GasUsed) ∧
    ((Run (sampleVM 9 3 [])
        { idle with vmContext := { Addr := [], GasUsed := 3, GasLimit := 0 } }
        (sampleContract 10) (some [0xc6, 0x01, 0x84, 0x68, 0x61, 0x6c, 0x66]) false).1 =
        .ret [] none ∧
      (Run (sampleVM 9 3 [])
        { idle with vmContext := { Addr := [], GasUsed := 3, GasLimit := 0 } }
        (sampleContract 10) (some [0xc6, 0x01, 0x84, 0x68, 0x61, 0x6c, 0x66])
        false).2.contract.Gas = (sampleContract 10).Gas - 3) :=
  ⟨Run_unhandled_return_type (sampleVM 9 3 []) idle (sampleContract 10)
      [0xc6, 0x01, 0x84, 0x68, 0x61, 0x6c, 0x66] false 1 sampleAbiJson sampleBytecode
      { memory := [], exports := ["init", "set", "name", "half", "add"] }
      { memory := [], exports := ["init", "set", "name", "half", "add"] }
      { txType := 1, funcName := "half", params := [], returnType := "int16", err := none }
      3
      { res := 9, err := none,
        vm := { memory := [], exports := ["init", "set", "name", "half", "add"] },
        GasUsed := 3 }
      (by decide) (by decide) (by rfl) (by decide) (by decide) (by decide) (by rfl)
      (by decide) (by decide) (by decide),
    Run_unhandled_return_type (sampleVM 9 3 [])
      { idle with vmContext := { Addr := [], GasUsed := 3, GasLimit := 0 } }
      (sampleContract 10)
      [0xc6, 0x01, 0x84, 0x68, 0x61, 0x6c, 0x66] false 1 sampleAbiJson sampleBytecode
      { memory := [], exports := ["init", "set", "name", "half", "add"] }
      { memory := [], exports := ["init", "set", "name", "half", "add"] }
      { txType := 1, funcName := "half", params := [], returnType := "int16", err := none }
      3
      { res := 9, err := none,
        vm := { memory := [], exports := ["init", "set", "name", "half", "add"] },
        GasUsed := 3 }
      (by decide) (by decide) (by rfl) (by decide) (by decide) (by decide) (by rfl)
      (by decide) (by decide) (by decide)⟩

/-- C14 fails on the code: the sample contract's `name` entry is declared to
return "string"; when the machine returns the raw word -1, or the word 6 with a
memory of 5 bytes, the slice expression at line 145 panics and `Run`, which has
no `recover`, ends by that panic instead of returning bytes or an error. -/
theorem Run_string_offset_panics :
    (Run (sampleVM (-1) 3 [7, 0x68, 0x69, 0, 9]) idle (sampleContract 10)
        (some [0xc6, 0x01, 0x84, 0x6e, 0x61, 0x6d, 0x65]) false).1 =
        .panic "slice bounds out of range" ∧
      (Run (sampleVM 6 3 [7, 0x68, 0x69, 0, 9]) idle (sampleContract 10)
        (some [0xc6, 0x01, 0x84, 0x6e, 0x61, 0x6d, 0x65]) false).1 =
        .panic "slice bounds out of range" ∧
      ¬ ∃ bytes err, (Run (sampleVM (-1) 3 [7, 0x68, 0x69, 0, 9]) idle (sampleContract 10)
        (some [0xc6, 0x01, 0x84, 0x6e, 0x61, 0x6d, 0x65]) false).1 = .ret bytes err := by
  have h : (Run (sampleVM (-1) 3 [7, 0x68, 0x69, 0, 9]) idle (sampleContract 10)
        (some [0xc6, 0x01, 0x84, 0x6e, 0x61, 0x6d, 0x65]) false).1 =
        .panic "slice bounds out of range" := by decide
  refine ⟨h, by decide, ?_⟩
  rintro ⟨bytes, err, hb⟩
  rw [h] at hb
  cases hb

/-- C16: whenever `Run` fails with a decode error, that is, `parseRlpData`
rejects the contract code, or the bundle decodes, the machine is instantiated and
`parseInputFromAbi` rejects the call input (malformed input, malformed ABI JSON,
argument-count mismatch, a fault in the conversion), `Run` returns that error,
the caller's gas budget is what it was at entry, and the calls made do not
include `RunWithGasLimit`. -/
theorem Run_decode_error {V : Type} (E : Engine V) (s : WASMInterpreter V)
    (contract : Contract) (input : Option Bytes) (flag : Bool)
    (h0 : contract.Code.length ≠ 0)
    (h : (∃ er, (parseRlpData E contract.Code).2.2.2 = some er) ∨
      (∃ t abi code vm inp, input = some inp ∧
        parseRlpData E contract.Code = (t, abi, code, none) ∧
        E.NewVirtualMachine code
          { s.vmContext with Addr := contract.address, GasLimit := contract.Gas } = .ok vm ∧
        (parseInputFromAbi E vm (some inp) abi).1.err ≠ none)) :
    (∃ err, (Run E s contract input flag).1 = .ret [] (some err)) ∧
      (Run E s contract input flag).2.contract.Gas = contract.Gas ∧
      ∃ calls, (Run E s contract input flag).2.trace = s.trace ++ calls ∧
        Event.RunWithGasLimit ∉ calls := by
  rcases h with ⟨er, her⟩ | ⟨t, abi, code, vm, inp, hi, hp, hv, hperr⟩
  · rcases hp : parseRlpData E contract.Code with ⟨t, abi, code, e⟩
    rw [hp] at her
    simp only at her
    subst her
    refine ⟨⟨er, ?_⟩, ?_, [Event.parseRlpData], ?_, by decide⟩ <;>
      simp [Run, runBody, h0, hp]
  · subst hi
    obtain ⟨e, he⟩ := Option.ne_none_iff_exists'.mp hperr
    refine ⟨⟨e, ?_⟩, ?_,
      [Event.parseRlpData, Event.NewVirtualMachine, Event.parseInputFromAbi], ?_, by decide⟩ <;>
      simp [Run, runBody, h0, hp, hv, he]

/-- The sample contract's `set` takes one argument; the call passes two and 10 gas. -/
theorem Run_decode_error_witness :
    (∃ err, (Run (sampleVM 0 3 []) idle (sampleContract 10)
        (some [0xcb, 0x01, 0x83, 0x73, 0x65, 0x74, 0x82, 0x00, 0x01, 0x82, 0x00, 0x02])
        false).1 = .ret [] (some err)) ∧
      (Run (sampleVM 0 3 []) idle (sampleContract 10)
        (some [0xcb, 0x01, 0x83, 0x73, 0x65, 0x74, 0x82, 0x00, 0x01, 0x82, 0x00, 0x02])
        false).2.contract.Gas = (sampleContract 10).Gas ∧
      ∃ calls, (Run (sampleVM 0 3 []) idle (sampleContract 10)
        (some [0xcb, 0x01, 0x83, 0x73, 0x65, 0x74, 0x82, 0x00, 0x01, 0x82, 0x00, 0x02])
        false).2.trace = idle.trace ++ calls ∧ Event.RunWithGasLimit ∉ calls :=
  Run_decode_error (sampleVM 0 3 []) idle (sampleContract 10)
    (some [0xcb, 0x01, 0x83, 0x73, 0x65, 0x74, 0x82, 0x00, 0x01, 0x82, 0x00, 0x02]) false
    (by decide)
    (Or.inr ⟨1, sampleAbiJson, sampleBytecode,
      { memory := [], exports := ["init", "set", "name", "half", "add"] },
      [0xcb, 0x01, 0x83, 0x73, 0x65, 0x74, 0x82, 0x00, 0x01, 0x82, 0x00, 0x02],
      rfl, by decide, by rfl, by decide⟩)

/-! ## Claims on faults and on method resolution -/

theorem convertArg_short {V : Type} (E : Engine V) (vm : V) (v : Args) (b : Bytes)
    (params : List Int) (h : b.length < needed v.RealTypeName) :
    ∃ e, convertArg E vm v (.str b) params = (.error e, vm) := by
  unfold needed at h
  split at h
  · have hb : b = [] := by
      cases b with
      | nil => rfl
      | cons x xs => simp at h
    subst hb
    rename_i ht
    rcases ht with ht | ht | ht <;> exact ⟨"index out of range", by simp [convertArg, ht]⟩
  · split at h
    · rename_i ht
      exact ⟨"index out of range", by simp [convertArg, ht, Uint16, Nat.not_le.mpr h]⟩
    · split at h
      · rename_i ht
        rcases ht with ht | ht | ht | ht <;> exact ⟨"index out of range", by simp [convertArg, ht, Uint32, Nat.not_le.mpr h]⟩
      · split at h
        · rename_i ht
          rcases ht with ht | ht <;> exact ⟨"index out of range", by simp [convertArg, ht, Uint64, Nat.not_le.mpr h]⟩
        · simp at h

theorem convertArg_bad {V : Type} (E : Engine V) (vm : V) (a : Args) (r : RlpItem)
    (params : List Int)
    (h : (∃ l, r = RlpItem.list l) ∨
      (∃ b, r = RlpItem.str b ∧ b.length < needed a.RealTypeName)) :
    ∃ e, convertArg E vm a r params = (.error e, vm) := by
  rcases h with ⟨l, rfl⟩ | ⟨b, rfl, hb⟩
  · exact ⟨"interface conversion: not a byte slice", by simp [convertArg]⟩
  · exact convertArg_short E vm a b params hb

theorem convertArgs_bad {V : Type} (E : Engine V) (a : Args) (r : RlpItem)
    (hbad : (∃ l, r = RlpItem.list l) ∨
      (∃ b, r = RlpItem.str b ∧ b.length < needed a.RealTypeName)) :
    ∀ (args : List Args) (rest : List RlpItem) (vm : V) (params : List Int),
      (a, r) ∈ args.zip rest → ∃ e vm2, convertArgs E args rest vm params = (.error e, vm2) := by
  intro args
  induction args with
  | nil => intro rest vm params hmem; simp at hmem
  | cons v vs ih =>
    intro rest vm params hmem
    cases rest with
    | nil => simp at hmem
    | cons x xs =>
      rw [List.zip_cons_cons, List.mem_cons] at hmem
      rcases hc : convertArg E vm v x params with ⟨res, vm1⟩
      cases res with
      | error e => exact ⟨e, vm1, by simp [convertArgs, hc]⟩
      | ok p1 =>
        rcases hmem with hhead | htail
        · obtain ⟨rfl, rfl⟩ := Prod.mk.inj hhead
          obtain ⟨e, he⟩ := convertArg_bad E vm a r params hbad
          rw [he] at hc
          cases hc
        · obtain ⟨e, vm2, he⟩ := ih xs vm1 p1 htail
          exact ⟨e, vm2, by simp [convertArgs, hc, he]⟩

/-- C15, as the code has it: when the call input has as many raw arguments as the
resolved method declares and one of them is a nested list, or a byte-string shorter than its
declared type reads (empty for int8, uint8, bool; fewer than 2 bytes for int16;
fewer than 4 for int32, int, uint32, uint; fewer than 8 for int64, uint64),
`parseInputFromAbi` returns normally: the fault of the conversion loop is
recovered and the results are an error, transaction type -1, an empty function
name, a nil argument list and an empty return type. -/
theorem parseInputFromAbi_fault_recovered {V : Type} (E : Engine V) (vm : V)
    (inp abi : Bytes) (e0 : RlpItem) (f : Bytes) (rest : List RlpItem)
    (before after : List AbiMethod) (m : AbiMethod) (a : Args) (r : RlpItem)
    (hlen : 1 < inp.length)
    (hdec : E.rlpDecode inp = .ok (.list (e0 :: RlpItem.str f :: rest)))
    (hjson : E.FromJson abi = .ok (before ++ m :: after))
    (hbefore : ∀ x ∈ before, E.EqualFold (goString f) x.Method = false)
    (hm : E.EqualFold (goString f) m.Method = true)
    (hcount : rest.length = m.Args.length)
    (hmem : (a, r) ∈ m.Args.zip rest)
    (hbad : (∃ l, r = RlpItem.list l) ∨
      (∃ b, r = RlpItem.str b ∧ b.length < needed a.RealTypeName)) :
    ∃ err, (parseInputFromAbi E vm (some inp) abi).1 =
      { txType := -1, funcName := "", params := [], returnType := "", err := some err } := by
  obtain ⟨e, vm2, he⟩ := convertArgs_bad E a r hbad m.Args rest vm [] hmem
  rw [parseInputFromAbi_decoded E vm inp abi e0 f rest _ hlen hdec hjson,
    lookupMethod_first E _ before after m hbefore hm, if_neg (by simp [hcount]), he]
  exact ⟨e, rfl⟩

/-- The sample contract's `set` declares an int16; the call passes the one byte 01. -/
theorem parseInputFromAbi_fault_recovered_witness :
    ∃ err, (parseInputFromAbi (sampleVM 0 0 []) { memory := [], exports := [] }
        (some [0xc6, 0x01, 0x83, 0x73, 0x65, 0x74, 0x01]) sampleAbiJson).1 =
      { txType := -1, funcName := "", params := [], returnType := "", err := some err } :=
  parseInputFromAbi_fault_recovered (sampleVM 0 0 []) { memory := [], exports := [] }
    [0xc6, 0x01, 0x83, 0x73, 0x65, 0x74, 0x01] sampleAbiJson (RlpItem.str [1])
    [0x73, 0x65, 0x74] [RlpItem.str [1]] [] (sampleAbi.drop 1)
    { Method := "set", Args := [{ Name := "a", RealTypeName := "int16" }], Return := "void" }
    { Name := "a", RealTypeName := "int16" } (RlpItem.str [1])
    (by decide) (by rfl) (by rfl) (by decide) (by decide) (by decide)
    (List.mem_singleton.mpr rfl) (Or.inr ⟨[1], rfl, by decide⟩)

/-- C15 as stated fails when the argument count differs as well: the sample
contract's `set` declares one int16, the call input `[1, "set", 01, 02]` carries
the one-byte argument 01, too short for an int16, and a second argument; the
length comparison at line 234 rejects the call before the loop runs, and the
return type that comes back is "void", not the empty string. -/
theorem parseInputFromAbi_short_argument_and_count_mismatch :
    rlpDecode [0xc7, 0x01, 0x83, 0x73, 0x65, 0x74, 0x01, 0x02] =
        .ok (.list [RlpItem.str [1], RlpItem.str [0x73, 0x65, 0x74], RlpItem.str [1],
          RlpItem.str [2]]) ∧
      goString [0x73, 0x65, 0x74] = "set" ∧
      ([1] : Bytes).length < needed "int16" ∧
      (parseInputFromAbi (sampleVM 0 0 []) { memory := [], exports := [] }
        (some [0xc7, 0x01, 0x83, 0x73, 0x65, 0x74, 0x01, 0x02]) sampleAbiJson).1 =
        { txType := -1, funcName := "", params := [], returnType := "void",
          err := some "invalid input or invalid abi." } ∧
      ("void" : String) ≠ "" := by
  refine ⟨by rfl, by decide, by decide, by decide, by decide⟩

/-- C18: when `m` is the first entry of the ABI array, in array order, whose method
name folds to `funcName` (`strings.EqualFold`, equality ignoring letter case), the
results of `parseInputFromAbi` are computed from `m` alone: the raw arguments are
counted against and converted by `m.Args`, the return type is `m.Return`, and on
success the function name is the caller's spelling. The entries after `m`,
matching or not, do not influence the results. -/
theorem parseInputFromAbi_first_match {V : Type} (E : Engine V) (vm : V)
    (inp abi tx f : Bytes) (rest : List RlpItem) (before after : List AbiMethod)
    (m : AbiMethod)
    (hlen : 1 < inp.length)
    (hdec : E.rlpDecode inp = .ok (.list (RlpItem.str tx :: RlpItem.str f :: rest)))
    (hjson : E.FromJson abi = .ok (before ++ m :: after))
    (hbefore : ∀ x ∈ before, E.EqualFold (goString f) x.Method = false)
    (hm : E.EqualFold (goString f) m.Method = true) :
    parseInputFromAbi E vm (some inp) abi =
        (if m.Args.length ≠ rest.length then
          ({ txType := -1, funcName := "", params := [], returnType := m.Return,
             err := some "invalid input or invalid abi." }, vm)
        else
          match convertArgs E m.Args rest vm [] with
          | (.error e, vm1) => (parseFail e, vm1)
          | (.ok params, vm1) =>
            ({ txType := E.bytes2int64 tx, funcName := goString f, params := params,
               returnType := m.Return, err := none }, vm1)) ∧
      (∀ (abi2 : Bytes) (after2 : List AbiMethod),
        E.FromJson abi2 = .ok (before ++ m :: after2) →
        parseInputFromAbi E vm (some inp) abi2 = parseInputFromAbi E vm (some inp) abi) := by
  have key : ∀ (abi1 : Bytes) (after1 : List AbiMethod),
      E.FromJson abi1 = .ok (before ++ m :: after1) →
      parseInputFromAbi E vm (some inp) abi1 =
        (if m.Args.length ≠ rest.length then
          ({ txType := -1, funcName := "", params := [], returnType := m.Return,
             err := some "invalid input or invalid abi." }, vm)
        else
          match convertArgs E m.Args rest vm [] with
          | (.error e, vm1) => (parseFail e, vm1)
          | (.ok params, vm1) =>
            ({ txType := E.bytes2int64 tx, funcName := goString f, params := params,
               returnType := m.Return, err := none }, vm1)) := by
    intro abi1 after1 h1
    rw [parseInputFromAbi_decoded E vm inp abi1 _ f rest _ hlen hdec h1,
      lookupMethod_first E _ before after1 m hbefore hm]
    simp [bytesAt]
  refine ⟨key abi after hjson, fun abi2 after2 h2 => ?_⟩
  rw [key abi2 after2 h2, key abi after hjson]

/-- The sample contract's `set` is called as `SET`; the entries `name`, `half` and
`add` follow it in the ABI. -/
theorem parseInputFromAbi_first_match_witness :
    parseInputFromAbi (sampleVM 0 0 []) { memory := [], exports := [] }
        (some [0xc8, 0x01, 0x83, 0x53, 0x45, 0x54, 0x82, 0xff, 0xff]) sampleAbiJson =
        (if [({ Name := "a", RealTypeName := "int16" } : Args)].length ≠
            [RlpItem.str [0xff, 0xff]].length then
          ({ txType := -1, funcName := "", params := [], returnType := "void",
             err := some "invalid input or invalid abi." }, { memory := [], exports := [] })
        else
          match convertArgs (sampleVM 0 0 []) [{ Name := "a", RealTypeName := "int16" }]
              [RlpItem.str [0xff, 0xff]] { memory := [], exports := [] } [] with
          | (.error e, vm1) => (parseFail e, vm1)
          | (.ok params, vm1) =>
            ({ txType := (sampleVM 0 0 []).bytes2int64 [1], funcName := goString [0x53, 0x45, 0x54],
               params := params, returnType := "void", err := none }, vm1)) ∧
      (∀ (abi2 : Bytes) (after2 : List AbiMethod),
        (sampleVM 0 0 []).FromJson abi2 =
          .ok ([] ++
            { Method := "set", Args := [{ Name := "a", RealTypeName := "int16" }], Return := "void" } ::
              after2) →
        parseInputFromAbi (sampleVM 0 0 []) { memory := [], exports := [] }
          (some [0xc8, 0x01, 0x83, 0x53, 0x45, 0x54, 0x82, 0xff, 0xff]) abi2 =
        parseInputFromAbi (sampleVM 0 0 []) { memory := [], exports := [] }
          (some [0xc8, 0x01, 0x83, 0x53, 0x45, 0x54, 0x82, 0xff, 0xff]) sampleAbiJson) :=
  parseInputFromAbi_first_match (sampleVM 0 0 []) { memory := [], exports := [] }
    [0xc8, 0x01, 0x83, 0x53, 0x45, 0x54, 0x82, 0xff, 0xff] sampleAbiJson [1]
    [0x53, 0x45, 0x54] [RlpItem.str [0xff, 0xff]] [] (sampleAbi.drop 1)
    { Method := "set", Args := [{ Name := "a", RealTypeName := "int16" }], Return := "void" }
    (by decide) (by rfl) (by rfl) (by decide) (by decide)

theorem convertArg_unrecognised {V : Type} (E : Engine V) (vm : V) (v : Args) (b : Bytes)
    (params : List Int) (h : v.RealTypeName ∉ recognised) :
    convertArg E vm v (.str b) params = (.ok params, vm) := by
  simp only [recognised, List.mem_cons, List.mem_singleton, List.not_mem_nil, or_false,
    not_or] at h
  obtain ⟨h1, h2, h3, h4, h5, h6, h7, h8, h9, h10, h11⟩ := h
  simp [convertArg, h1, h2, h3, h4, h5, h6, h7, h8, h9, h10, h11]

theorem convertArgs_mixed {V : Type} (E : Engine V) (args : List Args) (raws : List Bytes)
    (h : List.Forall₂
      (fun a b => a.RealTypeName ∈ recognised → needed a.RealTypeName ≤ b.length) args raws) :
    ∀ (vm : V) (params : List Int), ∃ ws vm2,
      convertArgs E args (raws.map RlpItem.str) vm params = (.ok (params ++ ws), vm2) ∧
      List.Forall₂ (fun ab w => ∃ vmi, (convertArg E vmi ab.1 (.str ab.2) []).1 = .ok [w])
        ((args.zip raws).filter (fun ab => decide (ab.1.RealTypeName ∈ recognised))) ws := by
  induction h with
  | nil =>
    intro vm params
    exact ⟨[], vm, by simp [convertArgs], List.Forall₂.nil⟩
  | @cons a b as bs hab _ ih =>
    intro vm params
    by_cases hr : a.RealTypeName ∈ recognised
    · obtain ⟨w, vm2, hw⟩ := convertArg_recognised E vm a b hr (hab hr)
      obtain ⟨ws, vm3, hws, hall⟩ := ih vm2 (params ++ [w])
      refine ⟨w :: ws, vm3, ?_, ?_⟩
      · simp only [List.map_cons, convertArgs, hw, hws, List.append_assoc,
          List.singleton_append]
      · rw [List.zip_cons_cons, List.filter_cons_of_pos (by simpa using hr)]
        exact List.Forall₂.cons ⟨vm, by rw [hw]; rfl⟩ hall
    · obtain ⟨ws, vm3, hws, hall⟩ := ih vm params
      refine ⟨ws, vm3, ?_, ?_⟩
      · simp only [List.map_cons, convertArgs, convertArg_unrecognised E vm a b params hr, hws]
      · rw [List.zip_cons_cons, List.filter_cons_of_neg (by simpa using hr)]
        exact hall

theorem filter_zip_length (args : List Args) (raws : List Bytes)
    (h : args.length = raws.length) :
    ((args.zip raws).filter (fun ab => decide (ab.1.RealTypeName ∈ recognised))).length =
      (args.filter (fun a => decide (a.RealTypeName ∈ recognised))).length := by
  induction args generalizing raws with
  | nil => simp
  | cons a as ih =>
    cases raws with
    | nil => simp at h
    | cons b bs =>
      have h2 : as.length = bs.length := by simpa using h
      rw [List.zip_cons_cons]
      by_cases hr : a.RealTypeName ∈ recognised
      · rw [List.filter_cons_of_pos (by simpa using hr),
          List.filter_cons_of_pos (by simpa using hr), List.length_cons, List.length_cons,
          ih bs h2]
      · rw [List.filter_cons_of_neg (by simpa using hr),
          List.filter_cons_of_neg (by simpa using hr), ih bs h2]

/-- C19, as the code has it: when `funcName` resolves to the ABI method `m`, the
call input carries one byte-string per declared argument, and each byte-string
whose declared type is among the `case` labels is at least as long as that type
reads, `parseInputFromAbi` succeeds; an argument of any other type (such as
"uint16" or "float32") produces no word, so the argument list holds exactly one
word per argument of a recognised type, in declaration order, and its length is
the number of those arguments. -/
theorem parseInputFromAbi_skips_unrecognised {V : Type} (E : Engine V) (vm : V)
    (inp abi tx f : Bytes) (raws : List Bytes) (before after : List AbiMethod) (m : AbiMethod)
    (hlen : 1 < inp.length)
    (hdec : E.rlpDecode inp =
      .ok (.list (RlpItem.str tx :: RlpItem.str f :: raws.map RlpItem.str)))
    (hjson : E.FromJson abi = .ok (before ++ m :: after))
    (hbefore : ∀ x ∈ before, E.EqualFold (goString f) x.Method = false)
    (hm : E.EqualFold (goString f) m.Method = true)
    (hargs : List.Forall₂
      (fun a b => a.RealTypeName ∈ recognised → needed a.RealTypeName ≤ b.length)
      m.Args raws) :
    (parseInputFromAbi E vm (some inp) abi).1.err = none ∧
      (parseInputFromAbi E vm (some inp) abi).1.returnType = m.Return ∧
      (parseInputFromAbi E vm (some inp) abi).1.params.length =
        (m.Args.filter (fun a => decide (a.RealTypeName ∈ recognised))).length ∧
      List.Forall₂ (fun ab w => ∃ vmi, (convertArg E vmi ab.1 (.str ab.2) []).1 = .ok [w])
        ((m.Args.zip raws).filter (fun ab => decide (ab.1.RealTypeName ∈ recognised)))
        (parseInputFromAbi E vm (some inp) abi).1.params ∧
      (∀ a ∈ m.Args, a.RealTypeName ∉ recognised →
        ∀ (vmi : V) (b : Bytes) (ps : List Int),
          convertArg E vmi a (.str b) ps = (.ok ps, vmi)) := by
  obtain ⟨ws, vm2, hws, hall⟩ := convertArgs_mixed E m.Args raws hargs vm []
  have hl : m.Args.length = raws.length := hargs.length_eq
  have hz := hall.length_eq
  rw [filter_zip_length m.Args raws hl] at hz
  rw [parseInputFromAbi_decoded E vm inp abi _ f _ _ hlen hdec hjson,
    lookupMethod_first E _ before after m hbefore hm]
  simp only [List.length_map, hl, ne_eq, not_true_eq_false, if_false, hws, List.nil_append]
  exact ⟨trivial, trivial, hz.symm, hall,
    fun a _ ha vmi b ps => convertArg_unrecognised E vmi a b ps ha⟩


/-- The second sample contract's `mix` is called with a two-byte, a four-byte and
another four-byte argument for its uint16, int32 and float32. -/
theorem parseInputFromAbi_skips_unrecognised_witness :
    (parseInputFromAbi mixVM { memory := [], exports := [] }
        (some [0xd2, 0x01, 0x83, 0x6d, 0x69, 0x78, 0x82, 0, 1, 0x84, 0, 0, 0, 5, 0x84, 1, 2, 3, 4])
        mixAbiJson).1.err = none ∧
      (parseInputFromAbi mixVM { memory := [], exports := [] }
        (some [0xd2, 0x01, 0x83, 0x6d, 0x69, 0x78, 0x82, 0, 1, 0x84, 0, 0, 0, 5, 0x84, 1, 2, 3, 4])
        mixAbiJson).1.returnType = "void" ∧
      (parseInputFromAbi mixVM { memory := [], exports := [] }
        (some [0xd2, 0x01, 0x83, 0x6d, 0x69, 0x78, 0x82, 0, 1, 0x84, 0, 0, 0, 5, 0x84, 1, 2, 3, 4])
        mixAbiJson).1.params.length =
        (([{ Name := "h", RealTypeName := "uint16" }, { Name := "n", RealTypeName := "int32" },
          { Name := "r", RealTypeName := "float32" }] : List Args).filter
            (fun a => decide (a.RealTypeName ∈ recognised))).length ∧
      List.Forall₂ (fun ab w => ∃ vmi, (convertArg mixVM vmi ab.1 (.str ab.2) []).1 = .ok [w])
        ((([{ Name := "h", RealTypeName := "uint16" }, { Name := "n", RealTypeName := "int32" },
          { Name := "r", RealTypeName := "float32" }] : List Args).zip
            [[0, 1], [0, 0, 0, 5], [1, 2, 3, 4]]).filter
              (fun ab => decide (ab.1.RealTypeName ∈ recognised)))
        (parseInputFromAbi mixVM { memory := [], exports := [] }
          (some [0xd2, 0x01, 0x83, 0x6d, 0x69, 0x78, 0x82, 0, 1, 0x84, 0, 0, 0, 5, 0x84, 1, 2, 3, 4])
          mixAbiJson).1.params ∧
      (∀ a ∈ ([{ Name := "h", RealTypeName := "uint16" }, { Name := "n", RealTypeName := "int32" },
          { Name := "r", RealTypeName := "float32" }] : List Args),
        a.RealTypeName ∉ recognised →
        ∀ (vmi : Machine) (b : Bytes) (ps : List Int),
          convertArg mixVM vmi a (.str b) ps = (.ok ps, vmi)) :=
  parseInputFromAbi_skips_unrecognised mixVM { memory := [], exports := [] }
    [0xd2, 0x01, 0x83, 0x6d, 0x69, 0x78, 0x82, 0, 1, 0x84, 0, 0, 0, 5, 0x84, 1, 2, 3, 4]
    mixAbiJson [1] [0x6d, 0x69, 0x78] [[0, 1], [0, 0, 0, 5], [1, 2, 3, 4]] [] []
    { Method := "mix",
      Args := [{ Name := "h", RealTypeName := "uint16" }, { Name := "n", RealTypeName := "int32" },
        { Name := "r", RealTypeName := "float32" }],
      Return := "void" }
    (by decide) (by rfl) (by rfl) (by decide) (by decide)
    (List.Forall₂.cons (by decide)
      (List.Forall₂.cons (by decide) (List.Forall₂.cons (by decide) List.Forall₂.nil)))

/-- C19 as stated fails when an argument of a recognised type is too short: the
method `mix` declares uint16, int32 and float32, the call input carries three
byte-strings, the one for the int32 being the single byte 01, and
`parseInputFromAbi` returns an error and no argument word. With four bytes for the
int32 the same call succeeds with the one word 5. -/
theorem parseInputFromAbi_short_recognised_argument :
    mixVM.FromJson mixAbiJson = .ok mixAbi ∧
      rlpDecode [0xce, 0x01, 0x83, 0x6d, 0x69, 0x78, 0x82, 0, 1, 0x01, 0x84, 1, 2, 3, 4] =
        .ok (.list [RlpItem.str [1], RlpItem.str [0x6d, 0x69, 0x78], RlpItem.str [0, 1],
          RlpItem.str [1], RlpItem.str [1, 2, 3, 4]]) ∧
      goString [0x6d, 0x69, 0x78] = "mix" ∧
      (parseInputFromAbi mixVM { memory := [], exports := [] }
        (some [0xce, 0x01, 0x83, 0x6d, 0x69, 0x78, 0x82, 0, 1, 0x01, 0x84, 1, 2, 3, 4])
        mixAbiJson).1 =
        { txType := -1, funcName := "", params := [], returnType := "",
          err := some "index out of range" } ∧
      (parseInputFromAbi mixVM { memory := [], exports := [] }
        (some [0xd2, 0x01, 0x83, 0x6d, 0x69, 0x78, 0x82, 0, 1, 0x84, 0, 0, 0, 5, 0x84, 1, 2, 3, 4])
        mixAbiJson).1 =
        { txType := 1, funcName := "mix", params := [5], returnType := "void", err := none } := by
  refine ⟨by rfl, by rfl, by decide, by decide, by decide⟩

/-! ## The bundle round trip -/

theorem beNat_trimZeros (l : Bytes) : beNat (trimZeros l) = beNat l := by
  induction l with
  | nil => rfl
  | cons x xs ih =>
    unfold trimZeros
    split
    · rename_i h
      rw [ih, h]; simp [beNat]
    · rfl

theorem trimZeros_length_le (l : Bytes) : (trimZeros l).length ≤ l.length := by
  induction l with
  | nil => simp [trimZeros]
  | cons x xs ih =>
    unfold trimZeros
    split
    · simp only [List.length_cons]; omega
    · exact le_refl _

theorem trimZeros_head_ne_zero (l : Bytes) :
    (trimZeros l).take 1 = [] ∨ ∃ x, (trimZeros l).take 1 = [x] ∧ x ≠ 0 := by
  induction l with
  | nil => left; rfl
  | cons x xs ih =>
    unfold trimZeros
    split
    · exact ih
    · rename_i h
      right; exact ⟨x, rfl, h⟩

theorem trimZeros_ne_nil (l : Bytes) (h : beNat l ≠ 0) : trimZeros l ≠ [] := by
  intro hn
  have := beNat_trimZeros l
  rw [hn] at this
  exact h this.symm

/-- The length bytes of a payload of `n` bytes, `56 ≤ n < 2 ^ 64`. -/
theorem lengthBytes_spec (n : Nat) (h1 : 56 ≤ n) (h2 : n < 2 ^ 64) :
    beNat (trimZeros (bigEndian 8 n)) = n ∧
      1 ≤ (trimZeros (bigEndian 8 n)).length ∧ (trimZeros (bigEndian 8 n)).length ≤ 8 ∧
      ((trimZeros (bigEndian 8 n)).take 1).all (fun x => decide (x.val = 0)) = false := by
  have hb : beNat (bigEndian 8 n) = n := by
    rw [beNat_bigEndian]; exact Nat.mod_eq_of_lt (by norm_num at h2 ⊢; exact h2)
  have hne : trimZeros (bigEndian 8 n) ≠ [] := trimZeros_ne_nil _ (by rw [hb]; omega)
  have hle := trimZeros_length_le (bigEndian 8 n)
  rw [bigEndian_length] at hle
  refine ⟨by rw [beNat_trimZeros, hb], ?_, hle, ?_⟩
  · cases hl : trimZeros (bigEndian 8 n) with
    | nil => exact absurd hl hne
    | cons x xs => simp
  · rcases trimZeros_head_ne_zero (bigEndian 8 n) with h | ⟨x, hx, hx0⟩
    · cases hl : trimZeros (bigEndian 8 n) with
      | nil => exact absurd hl hne
      | cons y ys => rw [hl] at h; simp at h
    · rw [hx]
      simp only [List.all_cons, List.all_nil, Bool.and_true, decide_eq_false_iff_not]
      intro h0
      exact hx0 (Fin.ext h0)

theorem ofNat_val (k : Nat) (h : k < 256) : ((Fin.ofNat k : Byte)).val = k := by
  simp [Fin.ofNat, Nat.mod_eq_of_lt h]

theorem take_drop_append (payload tail : Bytes) :
    (payload ++ tail).take payload.length = payload ∧
      (payload ++ tail).drop payload.length = tail := by
  simp

theorem rlpSplit_short_str (payload tail : Bytes) (h : payload.length < 56)
    (hcanon : ∀ x, payload = [x] → 0x80 ≤ x.val) :
    rlpSplit (Fin.ofNat (0x80 + payload.length) :: (payload ++ tail)) =
      some (false, payload, tail) := by
  have hv := ofNat_val (0x80 + payload.length) (by omega)
  have hc : ¬ (payload.length = 1 ∧
      ((payload ++ tail).take 1).all (fun x => decide (x.val < 0x80)) = true) := by
    rintro ⟨h1, h2⟩
    obtain ⟨x, rfl⟩ := List.length_eq_one.mp h1
    have := hcanon x rfl
    simp at h2
    omega
  obtain ⟨ht, hd⟩ := take_drop_append payload tail
  rw [rlpSplit]
  simp only [hv]
  rw [if_neg (by omega), if_pos (by omega)]
  simp only [Nat.add_sub_cancel_left]
  rw [if_neg (by simp), if_neg hc, ht, hd]

theorem rlpSplit_short_list (payload tail : Bytes) (h : payload.length < 56) :
    rlpSplit (Fin.ofNat (0xc0 + payload.length) :: (payload ++ tail)) =
      some (true, payload, tail) := by
  have hv := ofNat_val (0xc0 + payload.length) (by omega)
  obtain ⟨ht, hd⟩ := take_drop_append payload tail
  rw [rlpSplit]
  simp only [hv]
  rw [if_neg (by omega), if_neg (by omega), if_neg (by omega), if_pos (by omega)]
  simp only [Nat.add_sub_cancel_left]
  rw [if_neg (by simp), ht, hd]

theorem rlpSplit_long_str (payload tail : Bytes) (h1 : 56 ≤ payload.length)
    (h2 : payload.length < 2 ^ 64) :
    rlpSplit (Fin.ofNat (0x80 + 55 + (trimZeros (bigEndian 8 payload.length)).length) ::
        (trimZeros (bigEndian 8 payload.length) ++ (payload ++ tail))) =
      some (false, payload, tail) := by
  obtain ⟨e1, e2, e3, e4⟩ := lengthBytes_spec payload.length h1 h2
  generalize trimZeros (bigEndian 8 payload.length) = lb at e1 e2 e3 e4
  have hv := ofNat_val (0x80 + 55 + lb.length) (by omega)
  obtain ⟨ht, hd⟩ := take_drop_append lb (payload ++ tail)
  obtain ⟨ht2, hd2⟩ := take_drop_append payload tail
  have hk : 0x80 + 55 + lb.length - 0xb7 = lb.length := by omega
  have ht1 : (lb ++ (payload ++ tail)).take 1 = lb.take 1 :=
    List.take_append_of_le_length e2
  rw [rlpSplit]
  simp only [hv]
  rw [if_neg (by omega), if_neg (by omega), if_pos (by omega)]
  simp only [hk, ht, hd, e1, ht1, e4]
  rw [if_neg (by simp), if_neg (by simp), if_neg (by omega), if_neg (by simp), ht2, hd2]

theorem rlpSplit_long_list (payload tail : Bytes) (h1 : 56 ≤ payload.length)
    (h2 : payload.length < 2 ^ 64) :
    rlpSplit (Fin.ofNat (0xc0 + 55 + (trimZeros (bigEndian 8 payload.length)).length) ::
        (trimZeros (bigEndian 8 payload.length) ++ (payload ++ tail))) =
      some (true, payload, tail) := by
  obtain ⟨e1, e2, e3, e4⟩ := lengthBytes_spec payload.length h1 h2
  generalize trimZeros (bigEndian 8 payload.length) = lb at e1 e2 e3 e4
  have hv := ofNat_val (0xc0 + 55 + lb.length) (by omega)
  obtain ⟨ht, hd⟩ := take_drop_append lb (payload ++ tail)
  obtain ⟨ht2, hd2⟩ := take_drop_append payload tail
  have hk : 0xc0 + 55 + lb.length - 0xf7 = lb.length := by omega
  have ht1 : (lb ++ (payload ++ tail)).take 1 = lb.take 1 :=
    List.take_append_of_le_length e2
  rw [rlpSplit]
  simp only [hv]
  rw [if_neg (by omega), if_neg (by omega), if_neg (by omega), if_neg (by omega)]
  simp only [hk, ht, hd, e1, ht1, e4]
  rw [if_neg (by simp), if_neg (by simp), if_neg (by omega), if_neg (by simp), ht2, hd2]

theorem rlpSplit_header_str (b tail : Bytes) (h : b.length < 2 ^ 64)
    (hc : ∀ x, b = [x] → 0x80 ≤ x.val) :
    rlpSplit (rlpHeader 0x80 b.length ++ b ++ tail) = some (false, b, tail) := by
  unfold rlpHeader
  split
  · rename_i hs
    simpa using rlpSplit_short_str b tail hs hc
  · rename_i hs
    simpa using rlpSplit_long_str b tail (by omega) h

/-- The decoder splits an encoded byte-string off the front of any input. -/
theorem rlpSplit_encodeBytes (b tail : Bytes) (h : b.length < 2 ^ 64) :
    rlpSplit (rlpEncodeBytes b ++ tail) = some (false, b, tail) := by
  cases b with
  | nil =>
    have e : rlpEncodeBytes [] = rlpHeader 0x80 ([] : Bytes).length ++ [] := rfl
    rw [e]
    exact rlpSplit_header_str [] tail h (by simp)
  | cons x xs =>
    cases xs with
    | nil =>
      by_cases hx : x.val < 0x80
      · have e : rlpEncodeBytes [x] = [x] := by simp [rlpEncodeBytes, hx]
        rw [e]
        simp [rlpSplit, hx]
      · have e : rlpEncodeBytes [x] = rlpHeader 0x80 [x].length ++ [x] := by
          simp [rlpEncodeBytes, hx]
        rw [e]
        refine rlpSplit_header_str [x] tail h (fun y hy => ?_)
        have : x = y := by simpa using hy
        subst this
        omega
    | cons y rest =>
      have e : rlpEncodeBytes (x :: y :: rest) =
          rlpHeader 0x80 (x :: y :: rest).length ++ (x :: y :: rest) := rfl
      rw [e]
      exact rlpSplit_header_str _ tail h (by simp)

/-- The decoder splits an encoded list payload off the front of any input. -/
theorem rlpSplit_header_list (payload tail : Bytes) (h : payload.length < 2 ^ 64) :
    rlpSplit (rlpHeader 0xc0 payload.length ++ payload ++ tail) = some (true, payload, tail) := by
  unfold rlpHeader
  split
  · rename_i hs
    simpa using rlpSplit_short_list payload tail hs
  · rename_i hs
    simpa using rlpSplit_long_list payload tail (by omega) h

theorem rlpHeader_length (offset n : Nat) :
    1 ≤ (rlpHeader offset n).length ∧ (rlpHeader offset n).length ≤ 9 := by
  unfold rlpHeader
  split
  · simp
  · have := trimZeros_length_le (bigEndian 8 n)
    rw [bigEndian_length] at this
    simp only [List.length_cons]
    omega

theorem rlpEncodeBytes_length (b : Bytes) :
    1 ≤ (rlpEncodeBytes b).length ∧ (rlpEncodeBytes b).length ≤ b.length + 9 := by
  have hh := fun n => rlpHeader_length 0x80 n
  cases b with
  | nil =>
    have e : rlpEncodeBytes [] = rlpHeader 0x80 0 ++ [] := rfl
    rw [e]
    have := hh 0
    simp only [List.length_append, List.length_nil]
    omega
  | cons x xs =>
    cases xs with
    | nil =>
      by_cases hx : x.val < 0x80
      · simp [rlpEncodeBytes, hx]
      · have := hh 1
        simp only [rlpEncodeBytes, hx, if_false, List.length_append, List.length_singleton]
        omega
    | cons y rest =>
      have e : rlpEncodeBytes (x :: y :: rest) =
          rlpHeader 0x80 (x :: y :: rest).length ++ (x :: y :: rest) := rfl
      rw [e]
      have := hh (x :: y :: rest).length
      rw [List.length_append]
      omega

theorem rlpEncodePayload_length (items : List Bytes) :
    items.length ≤ (rlpEncodePayload items).length := by
  induction items with
  | nil => simp [rlpEncodePayload]
  | cons b bs ih =>
    have := (rlpEncodeBytes_length b).1
    simp only [rlpEncodePayload, List.length_append, List.length_cons]
    omega

theorem rlpItems_str (fuel : Nat) (l payload rest : Bytes)
    (h : rlpSplit l = some (false, payload, rest)) :
    rlpItems (fuel + 1) l =
      match rlpItems fuel rest with
      | none => none
      | some items => some (RlpItem.str payload :: items) := by
  cases l with
  | nil => simp [rlpSplit] at h
  | cons b bs => simp only [rlpItems, h]

/-- The decoder reads an encoded list payload back, item by item. -/
theorem rlpItems_encodePayload (items : List Bytes) :
    ∀ fuel, items.length < fuel → (∀ b ∈ items, b.length < 2 ^ 64) →
      rlpItems fuel (rlpEncodePayload items) = some (items.map RlpItem.str) := by
  induction items with
  | nil =>
    intro fuel hf _
    cases fuel with
    | zero => simp at hf
    | succ k => simp [rlpEncodePayload, rlpItems]
  | cons b bs ih =>
    intro fuel hf hb
    cases fuel with
    | zero => simp at hf
    | succ k =>
      have hs := rlpSplit_encodeBytes b (rlpEncodePayload bs)
        (hb b (List.mem_cons_self _ _))
      have hrec := ih k (by simpa using hf) (fun x hx => hb x (List.mem_cons_of_mem _ hx))
      rw [rlpEncodePayload, rlpItems_str k _ b _ hs, hrec]
      rfl

/-- The decoder reads an encoded list of byte-strings back. -/
theorem rlpDecode_encodeList (items : List Bytes)
    (h1 : ∀ b ∈ items, b.length < 2 ^ 64)
    (h2 : (rlpEncodePayload items).length < 2 ^ 64) :
    rlpDecode (rlpEncodeList items) = .ok (.list (items.map RlpItem.str)) := by
  have hs := rlpSplit_header_list (rlpEncodePayload items) [] h2
  rw [List.append_nil] at hs
  have hi := rlpItems_encodePayload items ((rlpEncodePayload items).length + 1)
    (by have := rlpEncodePayload_length items; omega) h1
  simp only [rlpDecode, rlpEncodeList, hs, hi]

theorem int64_uint64 (t : Int) (h1 : -2 ^ 63 ≤ t) (h2 : t < 2 ^ 63) : int64 (uint64 t) = t := by
  have hc := uint64_cast t
  have hl := uint64_lt t
  unfold int64
  rw [Nat.mod_eq_of_lt hl]
  norm_num at hl h1 h2 hc ⊢
  split <;> omega

/-- C11: for every transaction type that is an `int64` and all bytecode and ABI
bytes (of a total length below `2 ^ 63`, as any two Go slices are), encoding the
three-element list of the eight big-endian bytes of the transaction type, the
bytecode and the ABI document, and applying `parseRlpData` to the encoding,
yields the transaction type, the ABI document and the bytecode again, and no
error. -/
theorem parseRlpData_encodeBundle {V : Type} (E : Engine V) (txType : Int)
    (bytecode abiJson : Bytes)
    (hdec : E.rlpDecode = rlpDecode)
    (hint : E.BytesToInt64 = utils.BytesToInt64)
    (hlo : -2 ^ 63 ≤ txType) (hhi : txType < 2 ^ 63)
    (hlen : bytecode.length + abiJson.length < 2 ^ 63) :
    parseRlpData E (encodeBundle txType bytecode abiJson) =
      (txType, abiJson, bytecode, none) := by
  have htx : (utils.Int64ToBytes txType).length = 8 := by
    simp [utils.Int64ToBytes, bigEndian_length]
  have h1 : ∀ b ∈ [utils.Int64ToBytes txType, bytecode, abiJson], b.length < 2 ^ 64 := by
    intro b hb
    simp only [List.mem_cons, List.mem_singleton, List.not_mem_nil, or_false] at hb
    rcases hb with rfl | rfl | rfl <;> omega
  have h2 : (rlpEncodePayload [utils.Int64ToBytes txType, bytecode, abiJson]).length <
      2 ^ 64 := by
    have a1 := (rlpEncodeBytes_length (utils.Int64ToBytes txType)).2
    have a2 := (rlpEncodeBytes_length bytecode).2
    have a3 := (rlpEncodeBytes_length abiJson).2
    simp only [rlpEncodePayload, List.length_append, List.length_nil]
    omega
  have hd := rlpDecode_encodeList _ h1 h2
  have hback : utils.BytesToInt64 (utils.Int64ToBytes txType) = txType := by
    have hu := uint64_lt txType
    rw [utils.BytesToInt64, utils.Int64ToBytes, beNat_bigEndian,
      Nat.mod_eq_of_lt (by norm_num at hu ⊢; exact hu), int64_uint64 txType hlo hhi]
  simp only [parseRlpData, encodeBundle, hdec, hd, hint, List.map_cons, List.map_nil,
    List.length_cons, List.length_nil, bytesAt, List.get?_cons_zero, List.get?_cons_succ,
    hback]
  simp

/-- The sample contract's bundle with transaction type -1. -/
theorem parseRlpData_encodeBundle_witness :
    parseRlpData (sampleVM 0 0 []) (encodeBundle (-1) sampleBytecode sampleAbiJson) =
      (-1, sampleAbiJson, sampleBytecode, none) :=
  parseRlpData_encodeBundle (sampleVM 0 0 []) (-1) sampleBytecode sampleAbiJson rfl rfl
    (by decide) (by decide) (by decide)

end PlatON
